import Mathlib

/-!
# CopyQ clipboard server: command dispatch and monitor supervision

A shallow embedding of `src/clipboardserver.cpp`.  The methods of
`ClipboardServer` become functions on an explicit server state.  Every call
that acts on a collaborator (main window, clipboard browser, configuration
manager, monitor process, sockets) is recorded in an effect trace, and the
state of a collaborator is tracked where the server reads it back.  What the
environment decides (how the monitor process reacts to a stop attempt,
whether it starts in time, which messages wait on the socket) is an argument
of the method concerned.  A member call through a null `m_socket` or
`m_monitor` ends the method with a fault.  Translatable strings (`tr`) stand
for themselves.
-/

namespace CopyQ

/-! ## Values -/

/-- Clipping content, `QMimeData`: format names paired with their bytes. -/
abbrev MimeData := List (String × String)

/-- Variant value, `QVariant`, restricted to the kinds the server handles. -/
inductive QVariant where
  | invalid
  | uint (n : Nat)
  | int (i : Int)
  | str (s : String)
  deriving DecidableEq, Repr

/-- Accumulator of `parseInt`: the decimal value of a run of digits. -/
def parseDigits : List Char → Nat → Option Nat
  | [], acc => some acc
  | c :: cs, acc =>
    if c.isDigit then parseDigits cs (acc * 10 + (c.toNat - 48)) else none

/-- Modelled from the spec: "if it parses as an integer it names a row" — the
conversion `Arguments` applies to a token popped as `int` (arguments.h and
the Qt conversion behind it are not part of the sources).  A token is an
integer when it is an optional sign followed by decimal digits and the value
fits the 32-bit `int`. -/
def parseInt (s : String) : Option Int :=
  match s.data with
  | [] => none
  | '-' :: ds =>
    if ds = [] then none
    else (parseDigits ds 0).bind fun n =>
      if n ≤ 2147483648 then some (-(n : Int)) else none
  | '+' :: ds =>
    if ds = [] then none
    else (parseDigits ds 0).bind fun n =>
      if n < 2147483648 then some (n : Int) else none
  | ds =>
    (parseDigits ds 0).bind fun n =>
      if n < 2147483648 then some (n : Int) else none

/-- Conversion `QVariant::isValid`. -/
def QVariant.isValid : QVariant → Bool
  | .invalid => false
  | _ => true

/-- Conversion `QVariant::toString`. -/
def QVariant.toString : QVariant → String
  | .invalid => ""
  | .uint n => Nat.repr n
  | .int i => ToString.toString i
  | .str s => s

/-- Conversion `QVariant::toInt(&ok)`: `none` stands for `ok == false`. -/
def QVariant.toInt? : QVariant → Option Int
  | .invalid => none
  | .uint n => some n
  | .int i => some i
  | .str s => parseInt s

/-! ## Command request -/

/-- Modelled from the spec: the Command Request, "an ordered sequence of string
arguments ... consumed left-to-right by the dispatcher, which pops a typed
value (string/int) or an optional value with a declared default; an
exhausted-with-required-value or type-mismatch condition marks the whole
request invalid" (class `Arguments` of arguments.h, not part of the sources).
`m_current` is the read position, `m_error` the invalid mark and
`m_default_value` the default declared for the next pop. -/
structure Arguments where
  m_args : List String
  m_current : Nat
  m_error : Bool
  m_default_value : QVariant
  deriving DecidableEq, Repr

namespace Arguments

/-- A fresh request holding the given tokens. -/
def ofList (tokens : List String) : Arguments :=
  { m_args := tokens, m_current := 0, m_error := false, m_default_value := .invalid }

def length (a : Arguments) : Nat := a.m_args.length

def error (a : Arguments) : Bool := a.m_error

/-- All tokens have been consumed. -/
def atEnd (a : Arguments) : Bool := decide (a.length ≤ a.m_current)

/-- All tokens have been consumed and the request is not marked invalid. -/
def finished (a : Arguments) : Bool := !a.m_error && a.atEnd

/-- Step back one token and clear the invalid mark, so that a token that failed
to pop as one type can be popped again as another. -/
def back (a : Arguments) : Arguments :=
  { a with m_error := false, m_current := a.m_current - 1 }

/-- Declare the default of the next pop: `args >> constant`. -/
def setDefault (v : QVariant) (a : Arguments) : Arguments :=
  { a with m_default_value := v }

/-- Pop the next token.  With the tokens exhausted the declared default is
returned, and the request is marked invalid when none was declared. -/
def toVariant (a : Arguments) : QVariant × Arguments :=
  let d := a.m_default_value
  let a := { a with m_default_value := QVariant.invalid }
  if a.m_error then (.invalid, a)
  else if a.length ≤ a.m_current then
    (d, { a with m_error := !d.isValid })
  else
    (.str (a.m_args.getD a.m_current ""), { a with m_current := a.m_current + 1 })

/-- Pop a string: `args >> QString&` (also `args >> QByteArray&`). -/
def toString (a : Arguments) : String × Arguments :=
  let (v, a) := a.toVariant
  (v.toString, a)

/-- Pop an integer: `args >> int&`.  A token that is not an integer is left in
place when a default was declared (the default is the result); without a
default it is consumed and the request is marked invalid. -/
def toInt (a : Arguments) : Int × Arguments :=
  let d := a.m_default_value
  let (v, a) := a.toVariant
  if a.m_error then (0, a)
  else
    match v.toInt? with
    | some n => (n, a)
    | none =>
      if d.isValid then ((d.toInt?).getD 0, a.back)
      else (0, { a with m_error := true })

/-- Tokens not consumed yet. -/
def remaining (a : Arguments) : Nat := a.length - a.m_current

end Arguments

/-! ## Collaborators -/

/-- Clipboard item as the monitor link sees it: the data and the content hash
derived from it (`ClipboardItem::data`, `ClipboardItem::dataHash`). -/
structure ClipboardItem where
  data : MimeData
  dataHash : Nat
  deriving DecidableEq, Repr

/-- A tab: its name (`getID`) and its rows, row 0 first. -/
structure ClipboardBrowser where
  id : String
  items : List MimeData
  deriving DecidableEq, Repr

/-- Main window: visibility, native window and menu identifiers, and the tabs
(`browser(i)` is the i-th tab, `tabs()` their names). -/
structure MainWindow where
  visible : Bool
  winId : Int
  menuId : Int
  tabs : List ClipboardBrowser
  deriving DecidableEq, Repr

/-- Modelled from the spec: the "small key-value configuration store (external
collaborator) holding `_last_hash`, format filters, watch toggles, and hotkey
strings" (class `ConfigurationManager`, not part of the sources).  `values`
is the store, `options` the option names that `options()` lists, `toolTips`
their descriptions, `visible` tells whether the configuration dialog is open
and `saved` is what `saveSettings` last wrote. -/
structure ConfigurationManager where
  values : List (String × QVariant)
  options : List String
  toolTips : List (String × String)
  visible : Bool
  saved : List (String × QVariant)
  deriving DecidableEq, Repr

namespace ConfigurationManager

def value (cm : ConfigurationManager) (name : String) : QVariant :=
  (cm.values.lookup name).getD .invalid

def optionToolTip (cm : ConfigurationManager) (name : String) : String :=
  (cm.toolTips.lookup name).getD ""

/-- Store `v` under `name`, replacing what was stored there. -/
def setValue (cm : ConfigurationManager) (name : String) (v : QVariant) :
    ConfigurationManager :=
  { cm with values := (name, v) :: cm.values.filter fun p => p.1 != name }

/-- Write the store to durable storage. -/
def saveSettings (cm : ConfigurationManager) : ConfigurationManager :=
  { cm with saved := cm.values }

end ConfigurationManager

inductive ProcessState where
  | NotRunning
  | Starting
  | Running
  deriving DecidableEq, Repr

/-- The monitor child process, `QProcess`: its state, whether its
`stateChanged` signal is connected to `monitorStateChanged`, whether its
`readyReadStandardError` signal is connected to `monitorStandardError`, and
its unread standard error. -/
structure QProcess where
  state : ProcessState
  stateChangedConnected : Bool
  stderrConnected : Bool
  stderr : String
  deriving DecidableEq, Repr

/-- The monitor connection, `QLocalSocket`.  `inbox` holds the framed messages
waiting to be read: `some item` is a message `readMessage` reads and decodes,
`none` one on which `readMessage` fails. -/
structure QLocalSocket where
  writable : Bool
  connected : Bool
  signalsBlocked : Bool
  readyReadConnected : Bool
  inbox : List (Option ClipboardItem)
  deriving DecidableEq, Repr

/-- Payload of a framed message written to the monitor. -/
inductive MonitorMessage where
  | settings (map : List (String × QVariant))
  | item (data : MimeData)
  deriving DecidableEq, Repr

inductive LogLevel where
  | LogNote
  | LogWarning
  | LogError
  deriving DecidableEq, Repr

inductive CommandStatus where
  | CommandSuccess
  | CommandBadSyntax
  | CommandError
  deriving DecidableEq, Repr

/-- Status code on the wire: "`0` success, `1` bad-syntax, `2`
application-error". -/
def CommandStatus.code : CommandStatus → Int
  | .CommandSuccess => 0
  | .CommandBadSyntax => 1
  | .CommandError => 2

/-- Calls the server makes into its collaborators, in the order made.  A tab
is named by its index at the time of the call. -/
inductive Effect where
  | lock (tab : Nat)
  | unlock (tab : Nat)
  | showWindow
  | close
  | toggleVisible
  | showMenu
  | showError (msg : String)
  | showBrowser (tab : Nat)
  | quitTimer
  | openActionDialog (text : String)
  | action (text cmd sep outputTab : String)
  | add (tab : Nat) (data : MimeData)
  | newItem (tab : Nat) (text : String)
  | updateClipboard (tab : Nat)
  | delayedSaveItems (tab : Nat) (msec : Nat)
  | openEditor (tab : Nat) (text : String)
  | edit (tab : Nat) (row : Int)
  | setCurrent (tab : Nat) (row : Int)
  | scrollTo (tab : Nat) (row : Int)
  | moveToClipboard (tab : Nat) (row : Int)
  | removeRow (tab : Nat) (row : Int)
  | addToTab (data : MimeData)
  | createTab (name : String)
  | removeTab (index : Nat)
  | renameTab (name : String) (index : Nat)
  | saveTab (fileName : String) (index : Nat)
  | loadTab (fileName : String)
  | setValue (name : String) (v : QVariant)
  | saveSettings
  | setAutoUpdate (tab : Nat) (enable : Bool)
  | newProcess
  | startProcess
  | disconnectStateChanged
  | socketDisconnectFromServer
  | socketDeleteLater
  | socketBlockSignals (enable : Bool)
  | waitForFinished (msec : Nat)
  | waitForStarted (msec : Nat)
  | terminate
  | kill
  | monitorDeleteLater
  | exit (code : Int)
  | writeMessage (msg : MonitorMessage)
  deriving DecidableEq, Repr

/-- State of the server and of the collaborators it talks to.
`m_socket`, `m_wnd`, `m_monitor`, `m_lastHash` are the members of
`ClipboardServer` (a null pointer is `none`); `cm` is the configuration
manager singleton; `log` collects the `log(...)` calls; `effects` the calls
into collaborators.  The remaining fields tell what the environment answers:
the clipboard and selection contents, whether `openEditor` starts an editor,
the files `saveTab` can write and `loadTab` can read, and whether the build
defines `Q_WS_X11`. -/
structure ClipboardServer where
  m_socket : Option QLocalSocket
  m_wnd : MainWindow
  m_monitor : Option QProcess
  m_lastHash : Nat
  cm : ConfigurationManager
  log : List (String × LogLevel)
  effects : List Effect
  clipboard : Option MimeData
  selection : Option MimeData
  editor : Bool
  writableFiles : List String
  readableFiles : List String
  Q_WS_X11 : Bool
  deriving DecidableEq, Repr

namespace ClipboardServer

def emit (s : ClipboardServer) (e : Effect) : ClipboardServer :=
  { s with effects := s.effects ++ [e] }

/-- Logging: `log(text, level)`. -/
def logMsg (s : ClipboardServer) (text : String) (level : LogLevel) : ClipboardServer :=
  { s with log := s.log ++ [(text, level)] }

/-- Names of the tabs: `m_wnd->tabs()`. -/
def tabs (s : ClipboardServer) : List String := s.m_wnd.tabs.map (·.id)

/-- Rows of tab `c`. -/
def rows (s : ClipboardServer) (c : Nat) : List MimeData :=
  match s.m_wnd.tabs[c]? with
  | some b => b.items
  | none => []

/-- Replace the rows of tab `c`. -/
def setRows (s : ClipboardServer) (c : Nat) (items : List MimeData) : ClipboardServer :=
  { s with m_wnd := { s.m_wnd with
      tabs := s.m_wnd.tabs.modify (fun b => { b with items := items }) c } }

end ClipboardServer

/-! ## Rows addressed by an `int` -/

/-- The row at an index, nothing when the index names no row. -/
def rowAt {α : Type} (l : List α) (row : Int) : Option α :=
  if row < 0 then none else l[row.toNat]?

/-- The rows with the one at the index taken out; an index that names no row
takes nothing out. -/
def eraseRow {α : Type} (l : List α) (row : Int) : List α :=
  if row < 0 then l else l.eraseIdx row.toNat

/-! ## Collaborator calls

Modelled from the spec: the main window, its tabs and the clipboard browser
are "external collaborators, specified only at their interface boundary"
(mainwindow.h, clipboardbrowser.h are not part of the sources).  Each call is
recorded in the effect trace; the tab list and the rows are updated where the
spec says what the call does to them. -/

namespace ClipboardServer

/-- Bytes stored for a format: `QMimeData::data`. -/
def mimeBytes (d : MimeData) (mime : String) : String := (d.lookup mime).getD ""

/-- Format names: `QMimeData::formats`. -/
def formats (d : MimeData) : List String := d.map (·.1)

/-- Store bytes for a format, replacing earlier ones: `QMimeData::setData`. -/
def setData (d : MimeData) (mime bytes : String) : MimeData :=
  (d.filter fun p => p.1 != mime) ++ [(mime, bytes)]

/-- Data of a row, null when there is no such row: `c->itemData(row)`. -/
def itemData (s : ClipboardServer) (c : Nat) (row : Int) : Option MimeData :=
  rowAt (s.rows c) row

/-- Text of a row, empty when there is no such row: `c->itemText(row)`. -/
def itemText (s : ClipboardServer) (c : Nat) (row : Int) : String :=
  match s.itemData c row with
  | some d => mimeBytes d "text/plain"
  | none => ""

/-- Number of rows: `c->length()`. -/
def length (s : ClipboardServer) (c : Nat) : Nat := (s.rows c).length

/-- New item on top of the list: `c->add(...)`. -/
def add (s : ClipboardServer) (c : Nat) (d : MimeData) : ClipboardServer :=
  (s.emit (.add c d)).setRows c (d :: s.rows c)

/-- New text item on top of the list: `c->newItem(text)`. -/
def newItem (s : ClipboardServer) (c : Nat) (text : String) : ClipboardServer :=
  (s.emit (.newItem c text)).setRows c ([("text/plain", text)] :: s.rows c)

/-- Removal of one row: `c->model()->removeRow(row)`.  The row at the index is
taken out and the rows after it move up; an index that names no row removes
nothing. -/
def removeRow (s : ClipboardServer) (c : Nat) (row : Int) : ClipboardServer :=
  let s := s.emit (.removeRow c row)
  s.setRows c (eraseRow (s.rows c) row)

def showWindow (s : ClipboardServer) : ClipboardServer :=
  { s.emit .showWindow with m_wnd := { s.m_wnd with visible := true } }

def close (s : ClipboardServer) : ClipboardServer :=
  { s.emit .close with m_wnd := { s.m_wnd with visible := false } }

def toggleVisible (s : ClipboardServer) : ClipboardServer :=
  { s.emit .toggleVisible with m_wnd := { s.m_wnd with visible := !s.m_wnd.visible } }

/-- Select the tab of that name, creating it at the end of the tab bar when
there is none: `m_wnd->createTab(name, true)`; the result is the tab. -/
def createTab (s : ClipboardServer) (name : String) : Nat × ClipboardServer :=
  let s := s.emit (.createTab name)
  let i := s.tabs.indexOf name
  if i < s.tabs.length then (i, s)
  else
    (s.tabs.length,
      { s with m_wnd := { s.m_wnd with tabs := s.m_wnd.tabs ++ [{ id := name, items := [] }] } })

def removeTab (s : ClipboardServer) (i : Nat) : ClipboardServer :=
  { s.emit (.removeTab i) with m_wnd := { s.m_wnd with tabs := s.m_wnd.tabs.eraseIdx i } }

/-- Give tab `i` a new name: `m_wnd->renameTab(name, i)`. -/
def renameTab (s : ClipboardServer) (name : String) (i : Nat) : ClipboardServer :=
  { s.emit (.renameTab name i) with
    m_wnd := { s.m_wnd with tabs := s.m_wnd.tabs.modify (fun b => { b with id := name }) i } }

def saveTab (s : ClipboardServer) (fileName : String) (i : Nat) : Bool × ClipboardServer :=
  (decide (fileName ∈ s.writableFiles), s.emit (.saveTab fileName i))

def loadTab (s : ClipboardServer) (fileName : String) : Bool × ClipboardServer :=
  (decide (fileName ∈ s.readableFiles), s.emit (.loadTab fileName))

def cmSetValue (s : ClipboardServer) (name : String) (v : QVariant) : ClipboardServer :=
  { s.emit (.setValue name v) with cm := s.cm.setValue name v }

def cmSaveSettings (s : ClipboardServer) : ClipboardServer :=
  { s.emit .saveSettings with cm := s.cm.saveSettings }

end ClipboardServer

/-! ## Command dispatcher: `ClipboardServer::doCommand` -/

open ClipboardServer

abbrev CommandResult := CommandStatus × String × ClipboardServer

/-- The loop `while ( !args.finished() ) { args >> row; if ( args.error() ) ... }`
of `action`, `edit` and `remove`: integers are popped until the request is
exhausted or a pop fails.  The result is the request as the loop leaves it
and the rows popped, in order.  The first argument bounds the iterations by
the number of tokens left. -/
def popRows : Nat → Arguments → List Int → Arguments × List Int
  | 0, args, rows => (args, rows)
  | n + 1, args, rows =>
    if args.finished then (args, rows)
    else
      let (row, args) := args.toInt
      if args.error then (args, rows)
      else popRows n args (rows ++ [row])

/-- Text of the rows joined as `action` and `edit` do: the text of the first
row, then `'\n' + itemText(row)` for each further row. -/
def joinRows (s : ClipboardServer) (c : Nat) (row : Int) (rows : List Int) : String :=
  rows.foldl (fun text r => text ++ "\n" ++ s.itemText c r) (s.itemText c row)

def cmdShow (args : Arguments) (response : String) (s : ClipboardServer) : CommandResult :=
  if !args.atEnd then (.CommandBadSyntax, response, s)
  else
    let s := s.showWindow
    (.CommandSuccess, response ++ ToString.toString s.m_wnd.winId, s)

def cmdHide (args : Arguments) (response : String) (s : ClipboardServer) : CommandResult :=
  if !args.atEnd then (.CommandBadSyntax, response, s)
  else (.CommandSuccess, response, s.close)

def cmdToggle (args : Arguments) (response : String) (s : ClipboardServer) : CommandResult :=
  if !args.atEnd then (.CommandBadSyntax, response, s)
  else
    let s := s.toggleVisible
    if s.m_wnd.visible then
      (.CommandSuccess, response ++ ToString.toString s.m_wnd.winId, s)
    else (.CommandSuccess, response, s)

def cmdExit (args : Arguments) (response : String) (s : ClipboardServer) : CommandResult :=
  if !args.atEnd then (.CommandBadSyntax, response, s)
  else (.CommandSuccess, "Terminating server.\n", s.emit .quitTimer)

def cmdMenu (args : Arguments) (response : String) (s : ClipboardServer) : CommandResult :=
  if !args.atEnd then (.CommandBadSyntax, response, s)
  else (.CommandSuccess, response ++ ToString.toString s.m_wnd.menuId, s.emit .showMenu)

def cmdAction (args : Arguments) (response : String) (c : Nat) (s : ClipboardServer) :
    CommandResult :=
  let (row, args) := (args.setDefault (.int 0)).toInt
  let (args, rows) := popRows args.remaining args []
  let text := joinRows s c row rows
  if !args.error then
    (.CommandSuccess, response, s.emit (.openActionDialog text))
  else
    let args := args.back
    let (cmd, args) := args.toString
    let (sep, args) := (args.setDefault (.str "\n")).toString
    if !args.finished then (.CommandBadSyntax, response, s)
    else
      (.CommandSuccess, response,
        s.emit (.action text cmd sep ((s.m_wnd.tabs[c]?).map (·.id) |>.getD "")))

/-- The loop `while( !args.atEnd() ) c->add( args.toString(), true )`. -/
def addAll : Nat → Arguments → Nat → ClipboardServer → Arguments × ClipboardServer
  | 0, args, _, s => (args, s)
  | n + 1, args, c, s =>
    if args.atEnd then (args, s)
    else
      let (text, args) := args.toString
      addAll n args c (s.add c [("text/plain", text)])

def cmdAdd (args : Arguments) (response : String) (c : Nat) (s : ClipboardServer) :
    CommandResult :=
  if args.atEnd then (.CommandBadSyntax, response, s)
  else
    let (_, s) := addAll args.remaining args c s
    let s := s.emit (.updateClipboard c)
    let s := s.emit (.delayedSaveItems c 1000)
    (.CommandSuccess, response, s)

/-- The loop `do { args >> mime >> bytes; ... } while ( !args.atEnd() )` of
`write`; the request comes back marked invalid when a pop failed. -/
def writePairs : Nat → Arguments → MimeData → Arguments × MimeData
  | 0, args, data => (args, data)
  | n + 1, args, data =>
    let (mime, args) := args.toString
    let (bytes, args) := args.toString
    if args.error then (args, data)
    else
      let data := setData data mime bytes
      if args.atEnd then (args, data) else writePairs n args data

def cmdWrite (args : Arguments) (response : String) (c : Nat) (s : ClipboardServer) :
    CommandResult :=
  let (args, data) := writePairs (args.remaining + 1) args []
  if args.error then (.CommandBadSyntax, response, s)
  else
    let s := s.add c data
    let s := s.emit (.updateClipboard c)
    let s := s.emit (.delayedSaveItems c 1000)
    (.CommandSuccess, response, s)

def cmdEdit (args : Arguments) (response : String) (c : Nat) (s : ClipboardServer) :
    CommandResult :=
  let (row, args) := (args.setDefault (.int 0)).toInt
  let multiple_edit := !args.finished
  let (args, rows) := popRows args.remaining args []
  if args.error then (.CommandBadSyntax, response, s)
  else
    let text := joinRows s c row rows
    let row := (rows.getLast?).getD row
    let s := s.emit (.openEditor c text)
    if !s.editor then
      let s := s.emit (.showBrowser c)
      if multiple_edit || decide (row ≥ (s.length c : Int)) then
        let s := s.newItem c text
        (.CommandSuccess, response, s.emit (.edit c 0))
      else
        let s := s.emit (.setCurrent c row)
        let s := s.emit (.scrollTo c row)
        (.CommandSuccess, response, s.emit (.edit c row))
    else (.CommandSuccess, response, s)

def cmdSelect (args : Arguments) (response : String) (c : Nat) (s : ClipboardServer) :
    CommandResult :=
  let (row, args) := (args.setDefault (.int 0)).toInt
  if !args.finished then (.CommandBadSyntax, response, s)
  else
    let s := s.emit (.moveToClipboard c row)
    (.CommandSuccess, response, s.emit (.delayedSaveItems c 1000))

/-- Sorting with `qSort( rows.begin(), rows.end(), qGreater<int>() )`: the rows
in descending order. -/
def sortDescending (rows : List Int) : List Int :=
  rows.insertionSort (· ≥ ·)

/-- The rows popped by `remove`: the first with default 0, then one per
remaining token; the request comes back marked invalid when a pop failed. -/
def removeRows (args : Arguments) : Arguments × List Int :=
  let (row, args) := (args.setDefault (.int 0)).toInt
  popRows args.remaining args [row]

def cmdRemove (args : Arguments) (response : String) (c : Nat) (s : ClipboardServer) :
    CommandResult :=
  let (args, rows) := removeRows args
  if args.error then (.CommandBadSyntax, response, s)
  else
    let rows := sortDescending rows
    let s := rows.foldl (fun s row => s.removeRow c row) s
    let s := if rows.getLast? = some 0 then s.emit (.updateClipboard c) else s
    (.CommandSuccess, response, s.emit (.delayedSaveItems c 1000))

def cmdLength (args : Arguments) (response : String) (c : Nat) (s : ClipboardServer) :
    CommandResult :=
  if args.finished then (.CommandSuccess, Nat.repr (s.length c) ++ "\n", s)
  else (.CommandBadSyntax, response, s)

/-- What `read` and `clipboard` append for the data found: the format names
for the format `?`, else the bytes of the format; nothing for null data. -/
def appendData (response : String) (data : Option MimeData) (mime : String) : String :=
  match data with
  | some d =>
    if mime = "?" then response ++ String.intercalate "\n" (formats d) ++ "\n"
    else response ++ mimeBytes d mime
  | none => response

/-- The loop `do { args >> row; ... } while( !args.atEnd() )` of `read`. -/
def readLoop : Nat → Arguments → String → String → Nat → ClipboardServer → String
  | 0, _, _, response, _, _ => response
  | n + 1, args, mime, response, c, s =>
    let (row, args) := args.toInt
    let (row, mime, args) :=
      if args.error then
        let args := args.back
        let (mime, args) := args.toString
        let (row, args) := (args.setDefault (.int (-1))).toInt
        (row, mime, args)
      else (row, mime, args)
    let data := if row ≥ 0 then s.itemData c row else s.clipboard
    let response := appendData response data mime
    if args.atEnd then response else readLoop n args mime response c s

def cmdRead (args : Arguments) (response : String) (c : Nat) (s : ClipboardServer) :
    CommandResult :=
  if args.atEnd then (.CommandSuccess, appendData response s.clipboard "text/plain", s)
  else (.CommandSuccess, readLoop args.remaining args "text/plain" response c s, s)

def cmdClipboard (args : Arguments) (response : String) (s : ClipboardServer) :
    CommandResult :=
  let (mime, _) := (args.setDefault (.str "text/plain")).toString
  (.CommandSuccess, appendData response s.clipboard mime, s)

def cmdSelection (args : Arguments) (response : String) (s : ClipboardServer) :
    CommandResult :=
  let (mime, _) := (args.setDefault (.str "text/plain")).toString
  (.CommandSuccess, appendData response s.selection mime, s)

def cmdConfig (args : Arguments) (response : String) (s : ClipboardServer) : CommandResult :=
  if args.atEnd then
    let options := s.cm.options.insertionSort (fun a b => a ≤ b)
    (.CommandSuccess,
      options.foldl (fun r option => r ++ (option ++ "\n  " ++ s.cm.optionToolTip option ++ "\n"))
        response, s)
  else
    let (option, args) := args.toString
    if s.cm.options.contains option then
      if args.atEnd then
        (.CommandSuccess, response ++ (s.cm.value option).toString ++ "\n", s)
      else if s.cm.visible then
        (.CommandError,
          response ++ "To modify options from command line you must first close the CopyQ Configuration dialog!\n",
          s)
      else
        let (value, args) := args.toString
        if !args.atEnd then (.CommandBadSyntax, response, s)
        else
          let s := s.cmSetValue option (.str value)
          (.CommandSuccess, response, s.cmSaveSettings)
    else (.CommandError, response ++ "Invalid option!\n", s)

/-- The `tab` command; `recurse` is `doCommand` itself, for the call
`doCommand(args, response, c)` on the rest of the request. -/
def cmdTab (recurse : Arguments → String → Option Nat → ClipboardServer → Option CommandResult)
    (args : Arguments) (response : String) (s : ClipboardServer) : Option CommandResult :=
  if args.atEnd then
    some (.CommandSuccess, s.tabs.foldl (fun r tabName => r ++ (tabName ++ "\n")) response, s)
  else
    let (name, args) := args.toString
    if name.isEmpty then some (.CommandError, response ++ "Tab name cannot be empty!\n", s)
    else
      let (c, s) := s.createTab name
      if !args.atEnd then recurse args response (some c) s
      else some (.CommandSuccess, response, s)

def cmdRemovetab (args : Arguments) (response : String) (s : ClipboardServer) :
    CommandResult :=
  if args.atEnd then (.CommandBadSyntax, response, s)
  else
    let (name, args) := args.toString
    if !args.atEnd then (.CommandBadSyntax, response, s)
    else
      let i := s.tabs.indexOf name
      if i ≥ s.tabs.length then
        (.CommandError, response ++ "Tab with given name doesn't exist!\n", s)
      else (.CommandSuccess, response, s.removeTab i)

def cmdRenametab (args : Arguments) (response : String) (s : ClipboardServer) :
    CommandResult :=
  if args.atEnd then (.CommandBadSyntax, response, s)
  else
    let (name, args) := args.toString
    let (new_name, args) := args.toString
    if args.error then (.CommandBadSyntax, response, s)
    else
      let i := s.tabs.indexOf name
      if i ≥ s.tabs.length then
        (.CommandError, response ++ "Tab with given name doesn't exist!\n", s)
      else if new_name.isEmpty then
        (.CommandError, response ++ "Tab name cannot be empty!\n", s)
      else if s.tabs.indexOf new_name < s.tabs.length then
        (.CommandError, response ++ "Tab with given name already exists!\n", s)
      else (.CommandSuccess, response, s.renameTab new_name i)

def cmdExport (args : Arguments) (response : String) (c : Nat) (s : ClipboardServer) :
    CommandResult :=
  if args.atEnd then (.CommandBadSyntax, response, s)
  else
    let (fileName, args) := args.toString
    if args.error || !args.atEnd then (.CommandBadSyntax, response, s)
    else
      let (ok, s) := s.saveTab fileName c
      if !ok then
        (.CommandError, response ++ "Cannot save to file \"" ++ fileName ++ "\"!\n", s)
      else (.CommandSuccess, response, s)

def cmdImport (args : Arguments) (response : String) (s : ClipboardServer) : CommandResult :=
  if args.atEnd then (.CommandBadSyntax, response, s)
  else
    let (fileName, args) := args.toString
    if args.error || !args.atEnd then (.CommandBadSyntax, response, s)
    else
      let (ok, s) := s.loadTab fileName
      if !ok then
        (.CommandError, response ++ "Cannot import file \"" ++ fileName ++ "\"!\n", s)
      else (.CommandSuccess, response, s)

/-- End of the scope of `ClipboardBrowser::Lock lock(c)`: the browser is
unlocked on the way out of `doCommand`. -/
def unlockAfter (c : Nat) (r : CommandResult) : CommandResult :=
  (r.1, r.2.1, r.2.2.emit (.unlock c))

/-- The dispatcher `doCommand(args, response, target_browser)`.  The first
argument bounds the depth of the recursion through `tab`; `none` is returned
when the bound is reached.  A null `target_browser` is `none`. -/
def doCommandAux : Nat → Arguments → String → Option Nat → ClipboardServer →
    Option CommandResult
  | 0, _, _, _, _ => none
  | fuel + 1, args, response, target_browser, s =>
    let (cmd, args) := args.toString
    if args.error then some (.CommandBadSyntax, response, s)
    else
      let c := target_browser.getD 0
      let s := s.emit (.lock c)
      let r : Option CommandResult :=
        if cmd = "show" then some (cmdShow args response s)
        else if cmd = "hide" then some (cmdHide args response s)
        else if cmd = "toggle" then some (cmdToggle args response s)
        else if cmd = "exit" then some (cmdExit args response s)
        else if cmd = "menu" then some (cmdMenu args response s)
        else if cmd = "action" then some (cmdAction args response c s)
        else if cmd = "add" then some (cmdAdd args response c s)
        else if cmd = "write" then some (cmdWrite args response c s)
        else if cmd = "edit" then some (cmdEdit args response c s)
        else if cmd = "select" then some (cmdSelect args response c s)
        else if cmd = "remove" then some (cmdRemove args response c s)
        else if cmd = "length" ∨ cmd = "size" ∨ cmd = "count" then
          some (cmdLength args response c s)
        else if cmd = "read" then some (cmdRead args response c s)
        else if cmd = "clipboard" then some (cmdClipboard args response s)
        else if s.Q_WS_X11 = true ∧ cmd = "selection" then some (cmdSelection args response s)
        else if cmd = "config" then some (cmdConfig args response s)
        else if cmd = "tab" then cmdTab (doCommandAux fuel) args response s
        else if cmd = "removetab!" then some (cmdRemovetab args response s)
        else if cmd = "renametab" then some (cmdRenametab args response s)
        else if cmd = "export" then some (cmdExport args response c s)
        else if cmd = "import" then some (cmdImport args response s)
        else some (.CommandBadSyntax, response, s)
      r.map (unlockAfter c)

/-- Dispatch of a request: the recursion bound is the number of tokens, which
the nesting of `tab` cannot exceed. -/
def doCommand (args : Arguments) (response : String) (target_browser : Option Nat)
    (s : ClipboardServer) : Option CommandResult :=
  doCommandAux (args.remaining + 1) args response target_browser s

/-! ## Client session: `newConnection`, `sendMessage` -/

/-- Message written back to a client by `sendMessage`: the exit code followed
by the raw payload. -/
structure ClientMessage where
  exitCode : Int
  message : String
  deriving DecidableEq, Repr

def sendMessage (message : String) (exitCode : CommandStatus) : ClientMessage :=
  { exitCode := exitCode.code, message := message }

/-- Usage hint sent for a bad-syntax request. -/
def badSyntaxHint : String := "Bad command syntax. Use -h for help.\n"

/-- One client session, `newConnection`: `request` holds the tokens decoded
from the message read (no token when nothing could be decoded); the result
is the message sent back and the state the command leaves. -/
def newConnection (request : List String) (s : ClipboardServer) :
    Option (ClientMessage × ClipboardServer) :=
  let args := Arguments.ofList request
  let client_msg := ""
  (doCommand args client_msg none s).map fun (exitCode, client_msg, s) =>
    let client_msg := if exitCode = .CommandBadSyntax then badSyntaxHint else client_msg
    (sendMessage client_msg exitCode, s)

/-! ## Monitor supervisor and monitor link -/

/-- Why a method stops short: a member is called through the null `m_socket`
or the null `m_monitor`, or the slot `monitorStateChanged` is invoked while
`stopMonitoring` waits on the process (a nested run of the slot is not
modelled). -/
inductive Fault where
  | nullSocket
  | nullMonitor
  | nestedSlot
  deriving DecidableEq, Repr

/-- How a method of the supervisor ends: `done` with the state it leaves, or
`failed` with the state reached when the fault occurs. -/
inductive Outcome where
  | done (s : ClipboardServer)
  | failed (f : Fault) (s : ClipboardServer)
  deriving DecidableEq, Repr

namespace Outcome

/-- Sequencing: the next step runs on the state of a step that ended. -/
def andThen (r : Outcome) (k : ClipboardServer → Outcome) : Outcome :=
  match r with
  | done s => k s
  | failed f s => failed f s

/-- State carried by an outcome. -/
def state : Outcome → ClipboardServer
  | done s => s
  | failed _ s => s

end Outcome

/-- What the monitor process does on each attempt of `stopMonitoring` to stop
it: whether it has stopped when the wait after closing the socket ends, when
the wait after `terminate()` ends, and after `kill()`. -/
structure StopAttempts where
  closeStops : Bool
  terminateStops : Bool
  killStops : Bool
  deriving DecidableEq, Repr

/-- The process stops while the server waits on it.  The state change is
signalled: with `stateChanged` connected the slot would run inside the
wait. -/
def processStops (s : ClipboardServer) : Outcome :=
  match s.m_monitor with
  | none => .failed .nullMonitor s
  | some mon =>
    let s := { s with m_monitor := some { mon with state := .NotRunning } }
    if mon.stateChangedConnected then .failed .nestedSlot s else .done s

/-- Whether `m_monitor->state() != QProcess::NotRunning`. -/
def monitorRuns (s : ClipboardServer) : Bool :=
  match s.m_monitor with
  | some mon => mon.state != .NotRunning
  | none => false

/-- First attempt of `stopMonitoring` (lines 139 to 142): with a socket, close
it and wait. -/
def stopByClose (o : StopAttempts) (s : ClipboardServer) : Outcome :=
  match s.m_socket with
  | some sock =>
    let s := { s.emit .socketDisconnectFromServer with
                m_socket := some { sock with connected := false, writable := false } }
    let s := s.emit (.waitForFinished 1000)
    if o.closeStops then processStops s else .done s
  | none => .done s

/-- Third attempt of `stopMonitoring` (lines 150 to 159). -/
def stopByKill (o : StopAttempts) (s : ClipboardServer) : Outcome :=
  if monitorRuns s then
    let s := s.logMsg "Clipboard Monitor: Cannot terminate process!" .LogError
    let s := s.emit .kill
    (if o.killStops then processStops s else .done s).andThen fun s =>
      if monitorRuns s then
        .done (s.logMsg "Clipboard Monitor: Cannot kill process!!!" .LogError)
      else .done s
  else .done s

/-- Second attempt of `stopMonitoring` (lines 144 to 160). -/
def stopByTerminate (o : StopAttempts) (s : ClipboardServer) : Outcome :=
  if monitorRuns s then
    let s := s.logMsg "Clipboard Monitor: Command 'exit' unsucessful!" .LogError
    let s := s.emit .terminate
    let s := s.emit (.waitForFinished 1000)
    (if o.terminateStops then processStops s else .done s).andThen (stopByKill o)
  else .done s

/-- The method `stopMonitoring`. -/
def stopMonitoring (o : StopAttempts) (s : ClipboardServer) : Outcome :=
  let s := s.cmSetValue "_last_hash" (.uint s.m_lastHash)
  match s.m_monitor with
  | none => .done s
  | some mon =>
    let s := { s.emit .disconnectStateChanged with
                m_monitor := some { mon with stateChangedConnected := false } }
    let r : Outcome :=
      if monitorRuns s then
        let s := s.logMsg "Clipboard Monitor: Terminating" .LogNote
        (stopByClose o s).andThen (stopByTerminate o)
      else .done s
    r.andThen fun s =>
      let s := if monitorRuns s then s else s.logMsg "Clipboard Monitor: Terminated" .LogNote
      match s.m_socket with
      | none => .failed .nullSocket s
      | some _ =>
        let s := { s.emit .socketDeleteLater with m_socket := none }
        .done { s.emit .monitorDeleteLater with m_monitor := none }

/-- The branches of `monitorStateChanged` for `Starting` and `Running`, which
log the new state. -/
def logStateChanged (newState : ProcessState) (s : ClipboardServer) : ClipboardServer :=
  match newState with
  | .Starting => s.logMsg "Clipboard Monitor: Starting" .LogNote
  | .Running => s.logMsg "Clipboard Monitor: Started" .LogNote
  | .NotRunning => s

/-- The method `startMonitoring`; `started` is the result of
`waitForStarted(2000)`.  The new process reports `Starting` when it is
launched and `Running` once it has started, to the slot just connected. -/
def startMonitoring (started : Bool) (s : ClipboardServer) : ClipboardServer :=
  match s.m_monitor with
  | none =>
    let s := s.emit .newProcess
    let s := s.emit .startProcess
    let s := logStateChanged .Starting s
    let s := s.emit (.waitForStarted 2000)
    if !started then
      let mon : QProcess :=
        { state := .Starting, stateChangedConnected := true, stderrConnected := true,
          stderr := "" }
      let s := { s with m_monitor := some mon }
      let s := s.logMsg "Cannot start clipboard monitor!" .LogError
      let s := s.emit .monitorDeleteLater
      s.emit (.exit 10)
    else
      let mon : QProcess :=
        { state := .Running, stateChangedConnected := true, stderrConnected := true,
          stderr := "" }
      let s := { s with m_monitor := some mon }
      let s := logStateChanged .Running s
      s.emit (.setAutoUpdate 0 true)
  | some _ => s.emit (.setAutoUpdate 0 true)

/-- The slot `monitorStandardError`. -/
def monitorStandardError (s : ClipboardServer) : Outcome :=
  match s.m_monitor with
  | none => .failed .nullMonitor s
  | some mon =>
    .done ({ s with m_monitor := some { mon with stderr := "" } }.logMsg
      ("Clipboard Monitor: " ++ mon.stderr) .LogError)

/-- The slot `monitorStateChanged`. -/
def monitorStateChanged (o : StopAttempts) (started : Bool) (newState : ProcessState)
    (s : ClipboardServer) : Outcome :=
  match newState with
  | .NotRunning =>
    (monitorStandardError s).andThen fun s =>
      let msg := "Clipboard monitor crashed!"
      let s := s.logMsg msg .LogError
      let s := s.emit (.showError msg)
      (stopMonitoring o s).andThen fun s => .done (startMonitoring started s)
  | .Starting => .done (logStateChanged .Starting s)
  | .Running => .done (logStateChanged .Running s)

/-- Event: the monitor process reports a new state.  The slot runs when the
process is the one held in `m_monitor` with `stateChanged` connected. -/
def processStateChanged (o : StopAttempts) (started : Bool) (newState : ProcessState)
    (s : ClipboardServer) : Outcome :=
  match s.m_monitor with
  | none => .done s
  | some mon =>
    let s := { s with m_monitor := some { mon with state := newState } }
    if mon.stateChangedConnected then monitorStateChanged o started newState s
    else .done s

/-- The method `loadMonitorSettings`. -/
def loadMonitorSettings (s : ClipboardServer) : ClipboardServer :=
  match s.m_socket with
  | none => s
  | some sock =>
    if !sock.writable then s
    else
      let settings : List (String × QVariant) :=
        [("_last_hash", s.cm.value "_last_hash"),
         ("formats", s.cm.value "formats"),
         ("check_clipboard", s.cm.value "check_clipboard")] ++
        (if s.Q_WS_X11 then
          [("copy_clipboard", s.cm.value "copy_clipboard"),
           ("copy_selection", s.cm.value "copy_selection"),
           ("check_selection", s.cm.value "check_selection")]
         else [])
      s.emit (.writeMessage (.settings settings))

/-- The slot `newMonitorConnection`; `incoming` is the pending connection. -/
def newMonitorConnection (incoming : QLocalSocket) (s : ClipboardServer) : ClipboardServer :=
  let s :=
    match s.m_socket with
    | some _ =>
      let s := s.emit .socketDisconnectFromServer
      { s.emit .socketDeleteLater with m_socket := none }
    | none => s
  let s := { s with m_socket := some { incoming with readyReadConnected := true } }
  loadMonitorSettings s

/-- The loop of `readyRead` over the messages available on the socket, with
what follows the loop. -/
def readyReadLoop (o : StopAttempts) (started : Bool) :
    List (Option ClipboardItem) → ClipboardServer → Outcome
  | [], s =>
    match s.m_socket with
    | some sock => .done { s.emit (.socketBlockSignals false) with
                            m_socket := some { sock with signalsBlocked := false } }
    | none => .done s
  | msg :: rest, s =>
    match s.m_socket with
    | none => .done s
    | some sock =>
      let s := { s with m_socket := some { sock with inbox := rest } }
      match msg with
      | none =>
        let s := s.logMsg "Incorrect message from Clipboard Monitor." .LogError
        (stopMonitoring o s).andThen fun s => .done (startMonitoring started s)
      | some item =>
        if s.m_lastHash = item.dataHash then readyReadLoop o started rest s
        else
          let s := { s with m_lastHash := item.dataHash }
          readyReadLoop o started rest (s.emit (.addToTab item.data))

/-- The slot `readyRead`. -/
def readyRead (o : StopAttempts) (started : Bool) (s : ClipboardServer) : Outcome :=
  match s.m_socket with
  | none => .failed .nullSocket s
  | some sock =>
    let s := { s.emit (.socketBlockSignals true) with
                m_socket := some { sock with signalsBlocked := true } }
    readyReadLoop o started sock.inbox s

/-- The slot `changeClipboard`. -/
def changeClipboard (item : ClipboardItem) (s : ClipboardServer) : ClipboardServer :=
  match s.m_socket with
  | none => s
  | some sock =>
    if !sock.writable then s else s.emit (.writeMessage (.item item.data))

/-- Items forwarded to the window, in order: the `addToTab` calls of a trace. -/
def forwarded : List Effect → List MimeData
  | [] => []
  | .addToTab d :: es => d :: forwarded es
  | _ :: es => forwarded es

/-! ## States used in the worked examples -/

/-- A window with three rows `a`, `b`, `c` in its first tab and an empty
second tab. -/
def exampleWindow : MainWindow :=
  { visible := false, winId := 77, menuId := 78,
    tabs := [{ id := "main", items := [[("text/plain", "a")], [("text/plain", "b")],
                                        [("text/plain", "c")]] },
             { id := "work", items := [] }] }

/-- A configuration with the option `check_clipboard` and the stored hash 0;
the configuration dialog is closed. -/
def exampleConfig : ConfigurationManager :=
  { values := [("check_clipboard", .str "false"), ("_last_hash", .uint 0)],
    options := ["check_clipboard"],
    toolTips := [("check_clipboard", "Watch the clipboard")],
    visible := false,
    saved := [("check_clipboard", .str "false"), ("_last_hash", .uint 0)] }

/-- A server without monitor and without monitor connection. -/
def exampleServer : ClipboardServer :=
  { m_socket := none, m_wnd := exampleWindow, m_monitor := none, m_lastHash := 0,
    cm := exampleConfig, log := [], effects := [], clipboard := none, selection := none,
    editor := false, writableFiles := [], readableFiles := [], Q_WS_X11 := false }

/-- Six notifications with the hashes `1, 1, 2, 2, 2, 3`. -/
def exampleItems : List ClipboardItem :=
  [⟨[("text/plain", "p")], 1⟩, ⟨[("text/plain", "q")], 1⟩, ⟨[("text/plain", "r")], 2⟩,
   ⟨[("text/plain", "s")], 2⟩, ⟨[("text/plain", "t")], 2⟩, ⟨[("text/plain", "u")], 3⟩]

/-- A monitor connection on which `exampleItems` wait to be read. -/
def exampleSocket : QLocalSocket :=
  { writable := true, connected := true, signalsBlocked := false, readyReadConnected := true,
    inbox := exampleItems.map some }

/-- A running monitor process with its notifications connected. -/
def exampleMonitor : QProcess :=
  { state := .Running, stateChangedConnected := true, stderrConnected := true, stderr := "" }

/-- A process that stops as soon as its socket is closed. -/
def stopsAtOnce : StopAttempts :=
  { closeStops := true, terminateStops := true, killStops := true }

/-! ## Specification-side definitions -/

/-- The items of a message sequence whose hash differs from the hash of the
message just before (from `h0` for the first message), in arrival order. -/
def changedItems (h0 : Nat) (items : List ClipboardItem) : List ClipboardItem :=
  ((items.zip (h0 :: items.map (·.dataHash))).filter fun p => p.1.dataHash != p.2).map (·.1)

/-- The hash of the last message of a sequence, `h0` for the empty one. -/
def lastHashOf (h0 : Nat) (items : List ClipboardItem) : Nat :=
  ((items.map (·.dataHash)).getLast?).getD h0

/-- The rows left when exactly the rows at the given indices are deleted; the
second argument is the index of the first row of the list. -/
def withoutRowsFrom {α : Type} (rows : List Int) : Nat → List α → List α
  | _, [] => []
  | i, x :: xs =>
    if (i : Int) ∈ rows then withoutRowsFrom rows (i + 1) xs
    else x :: withoutRowsFrom rows (i + 1) xs

/-- The list with exactly the rows at the given indices deleted. -/
def withoutRows {α : Type} (rows : List Int) (l : List α) : List α :=
  withoutRowsFrom rows 0 l

/-- The indices passed to `removeRow` on tab `c`, in call order. -/
def removeCalls (c : Nat) : List Effect → List Int
  | [] => []
  | .removeRow c' row :: es => if c' = c then row :: removeCalls c es else removeCalls c es
  | _ :: es => removeCalls c es

/-- Whether `updateClipboard` is called on tab `c`. -/
def callsUpdateClipboard (c : Nat) (es : List Effect) : Bool :=
  es.contains (.updateClipboard c)

/-- The row indices a request `remove tokens` refers to: row 0 when no row is
given, else the integers the tokens stand for. -/
def referencedRows (tokens : List String) : List Int :=
  if tokens = [] then [0] else tokens.filterMap parseInt

/-- The statement of C2 for the request `remove tokens` run on tab `c` in
state `s`: the command ends, its `removeRow` calls are in strictly descending
order, each call finds at its index the item that stood there before the
command, and the rows left are the original rows with exactly the referenced
ones deleted. -/
def RemovesReferencedRows (tokens : List String) (c : Nat) (s : ClipboardServer) : Prop :=
  ∃ status response s' new,
    doCommand (Arguments.ofList ("remove" :: tokens)) "" (some c) s
      = some (status, response, s') ∧
    s'.effects = s.effects ++ new ∧
    (removeCalls c new).Pairwise (fun a b => b < a) ∧
    (∀ k (hk : k < (removeCalls c new).length),
      rowAt (((removeCalls c new).take k).foldl eraseRow (s.rows c)) ((removeCalls c new)[k])
        = rowAt (s.rows c) ((removeCalls c new)[k])) ∧
    s'.rows c = withoutRows (referencedRows tokens) (s.rows c)

/-- The statement of C8 for the request `remove tokens` run on tab `c` in
state `s`: when the request is not rejected as bad syntax, `updateClipboard`
is called on the tab if and only if row 0 is among the referenced rows. -/
def ResyncsIffRowZero (tokens : List String) (c : Nat) (s : ClipboardServer) : Prop :=
  ∀ status response s' new,
    doCommand (Arguments.ofList ("remove" :: tokens)) "" (some c) s
      = some (status, response, s') →
    s'.effects = s.effects ++ new →
    status ≠ .CommandBadSyntax →
    (callsUpdateClipboard c new = true ↔ (0 : Int) ∈ referencedRows tokens)

/-- The commands with a fixed maximum number of arguments, each with that
maximum. -/
def fixedArityCommands : List (String × Nat) :=
  [("show", 0), ("hide", 0), ("toggle", 0), ("exit", 0), ("menu", 0), ("select", 1),
   ("length", 0), ("size", 0), ("count", 0), ("clipboard", 1), ("config", 2),
   ("removetab!", 1), ("renametab", 2), ("export", 1), ("import", 1)]

/-- The commands of `fixedArityCommands` that test for tokens left over
before they return: all but `clipboard` and `renametab`. -/
def checkedArityCommands : List (String × Nat) :=
  [("show", 0), ("hide", 0), ("toggle", 0), ("exit", 0), ("menu", 0), ("select", 1),
   ("length", 0), ("size", 0), ("count", 0), ("config", 2),
   ("removetab!", 1), ("export", 1), ("import", 1)]

/-- The statement of C3 for one command: every request that carries more than
`n` tokens after the command is answered with bad-syntax. -/
def RejectsTrailingTokens (cmd : String) (n : Nat) : Prop :=
  ∀ (tokens : List String) (t : Option Nat) (s : ClipboardServer), n < tokens.length →
    ∃ response s',
      doCommand (Arguments.ofList (cmd :: tokens)) "" t s
        = some (.CommandBadSyntax, response, s')

/-- The status a request with tokens left over gets: bad-syntax, except that
`config` answers application-error before it counts the tokens when the
option is unknown or the configuration dialog is open. -/
def trailingTokenStatus (cmd : String) (tokens : List String) (s : ClipboardServer) :
    CommandStatus :=
  if cmd = "config" ∧ (!s.cm.options.contains (tokens.headD "") || s.cm.visible) = true then
    .CommandError
  else .CommandBadSyntax

/-- The example server with the configuration dialog open. -/
def exampleServerDialogOpen : ClipboardServer :=
  { exampleServer with cm := { exampleConfig with visible := true } }

/-- The crash message of `monitorStateChanged`. -/
def crashMessage : String × LogLevel := ("Clipboard monitor crashed!", .LogError)

/-- What `stopMonitoring` adds to a state: log lines `newLog` and collaborator
calls `newEffects`, the first of them the write of the last hash; the last
hash itself and the rest of the configuration manager are left alone. -/
def StopAdds (s s' : ClipboardServer) (newLog : List (String × LogLevel))
    (newEffects : List Effect) : Prop :=
  s'.log = s.log ++ newLog ∧
  s'.effects = s.effects ++ .setValue "_last_hash" (.uint s.m_lastHash) :: newEffects ∧
  s'.cm = s.cm.setValue "_last_hash" (.uint s.m_lastHash) ∧
  s'.m_lastHash = s.m_lastHash ∧
  s'.m_wnd = s.m_wnd

/-- The statement of C7 on the observable state: monitor handle, monitor
socket, last hash, contents of the configuration store and log are the same
in `s'` as in `s`. -/
def SameObservableState (s s' : ClipboardServer) : Prop :=
  s'.m_monitor = s.m_monitor ∧ s'.m_socket = s.m_socket ∧ s'.m_lastHash = s.m_lastHash ∧
  (∀ name, s'.cm.value name = s.cm.value name) ∧ s'.log = s.log

/-- The example server after it has forwarded an item with hash 5: the store
still holds the hash 0 written at the last stop. -/
def exampleServerHash5 : ClipboardServer :=
  { exampleServer with m_lastHash := 5 }

/-- The example server with a monitor process that has exited before it
connected to the server: the process handle exists, the socket does not. -/
def exampleServerNoLink : ClipboardServer :=
  { exampleServer with m_monitor := some { exampleMonitor with state := .NotRunning } }

/-- The command names the dispatcher knows; `selection` only in a build that
defines `Q_WS_X11`. -/
def commandNames (x11 : Bool) : List String :=
  ["show", "hide", "toggle", "exit", "menu", "action", "add", "write", "edit", "select",
   "remove", "length", "size", "count", "read", "clipboard", "config", "tab", "removetab!",
   "renametab", "export", "import"] ++ (if x11 then ["selection"] else [])

/-- The calls of a trace by which `stopMonitoring` works on the process, in
the order made: closing the socket, the waits, `terminate()` and `kill()`. -/
def stopSteps (es : List Effect) : List Effect :=
  es.filter fun e =>
    e == .socketDisconnectFromServer || e == .waitForFinished 1000 || e == .terminate ||
      e == .kill

/-- The escalation in the words of the spec: "If the process is running, close
the monitor-link socket connection and wait up to 1000ms.  If still running,
send a terminate signal and wait up to 1000ms again; if still running,
force-kill."  `running` tells whether the process runs when Stop is called,
`link` whether a monitor connection is there to be closed. -/
def escalation (running link : Bool) (o : StopAttempts) : List Effect :=
  if !running then []
  else
    (if link then [.socketDisconnectFromServer, .waitForFinished 1000] else []) ++
      (if link && o.closeStops then []
       else [.terminate, .waitForFinished 1000] ++ (if o.terminateStops then [] else [.kill]))

/-- The example server with a running monitor and its connection. -/
def exampleServerLive : ClipboardServer :=
  { exampleServer with m_socket := some exampleSocket, m_monitor := some exampleMonitor }

/-- A process that survives every attempt to stop it. -/
def neverStops : StopAttempts :=
  { closeStops := false, terminateStops := false, killStops := false }

/-- Nesting of `tab` in a request: the number of leading pairs `tab name` with
a non-empty name that are followed by at least one more token. -/
def tabDepth : List String → Nat
  | cmd :: name :: rest =>
    match rest with
    | [] => 0
    | _ :: _ => if cmd = "tab" ∧ name ≠ "" then tabDepth rest + 1 else 0
  | _ => 0

/-- A request read up to position `k`, valid and with no default declared. -/
def Arguments.upTo (tokens : List String) (k : Nat) : Arguments :=
  { m_args := tokens, m_current := k, m_error := false, m_default_value := .invalid }

/-! ## Duplicate suppression (C1) -/

theorem forwarded_append (xs ys : List Effect) :
    forwarded (xs ++ ys) = forwarded xs ++ forwarded ys := by
  induction xs with
  | nil => rfl
  | cons e es ih => cases e <;> simp [forwarded, ih]

theorem changedItems_cons (h0 : Nat) (it : ClipboardItem) (rest : List ClipboardItem) :
    changedItems h0 (it :: rest) =
      if it.dataHash = h0 then changedItems it.dataHash rest
      else it :: changedItems it.dataHash rest := by
  unfold changedItems
  by_cases h : it.dataHash = h0 <;> simp [List.filter_cons, h]

theorem lastHashOf_cons (h0 : Nat) (it : ClipboardItem) (rest : List ClipboardItem) :
    lastHashOf h0 (it :: rest) = lastHashOf it.dataHash rest := by
  unfold lastHashOf
  cases rest with
  | nil => simp
  | cons b bs =>
    have hne : b.dataHash :: List.map (fun x => x.dataHash) bs ≠ [] := by simp
    simp only [List.map_cons, List.getLast?_cons_cons, List.getLast?_eq_getLast _ hne,
      Option.getD_some]

/-- The loop of `readyRead` on messages that all read and decode: it ends, it
forwards the changed items and leaves the hash of the last message. -/
theorem readyReadLoop_items (o : StopAttempts) (started : Bool)
    (items : List ClipboardItem) :
    ∀ (s : ClipboardServer) (sock : QLocalSocket), s.m_socket = some sock →
      ∃ s', readyReadLoop o started (items.map some) s = .done s' ∧
        forwarded s'.effects =
          forwarded s.effects ++ (changedItems s.m_lastHash items).map (·.data) ∧
        s'.m_lastHash = lastHashOf s.m_lastHash items := by
  induction items with
  | nil =>
    intro s sock hs
    simp [readyReadLoop, hs, ClipboardServer.emit, forwarded_append, forwarded,
      changedItems, lastHashOf]
  | cons it rest ih =>
    intro s sock hs
    simp only [List.map_cons, readyReadLoop, hs]
    by_cases h : s.m_lastHash = it.dataHash
    · rw [if_pos h]
      obtain ⟨s', h1, h2, h3⟩ :=
        ih { s with m_socket := some { sock with inbox := rest.map some } } _ rfl
      refine ⟨s', h1, ?_, ?_⟩
      · rw [h2, changedItems_cons]; simp [h]
      · rw [h3, lastHashOf_cons]; simp [h]
    · rw [if_neg h]
      obtain ⟨s', h1, h2, h3⟩ :=
        ih (({ s with m_socket := some { sock with inbox := rest.map some },
                      m_lastHash := it.dataHash } : ClipboardServer).emit
              (.addToTab it.data)) { sock with inbox := rest.map some } rfl
      refine ⟨s', h1, ?_, ?_⟩
      · rw [h2, changedItems_cons]
        have h' : ¬ it.dataHash = s.m_lastHash := fun e => h e.symm
        simp [h', ClipboardServer.emit, forwarded_append, forwarded]
      · rw [h3, lastHashOf_cons]; simp [ClipboardServer.emit]

/-- C1: duplicate suppression in `readyRead`.  For every initial last hash and
every sequence of messages that read and decode, `readyRead` ends, the items
it forwards with `addToTab` are exactly, in arrival order, those whose hash
differs from the hash of the message just before (from the initial last hash
for the first), and the last hash stored afterwards is the hash of the last
message (the initial one when there is no message).  In particular for the
hashes `h, h, h2, h2, h2, h3` with `h` different from the initial hash and
from `h2`, and `h2` different from `h3`, exactly the first, third and sixth
item are forwarded. -/
theorem readyRead_duplicate_suppression (o : StopAttempts) (started : Bool)
    (s : ClipboardServer) (sock : QLocalSocket) (items : List ClipboardItem)
    (hs : s.m_socket = some sock) (hin : sock.inbox = items.map some) :
    ∃ s', readyRead o started s = .done s' ∧
      forwarded s'.effects =
        forwarded s.effects ++ (changedItems s.m_lastHash items).map (·.data) ∧
      s'.m_lastHash = lastHashOf s.m_lastHash items ∧
      ∀ (d1 d2 d3 d4 d5 d6 : MimeData) (h h2 h3 : Nat),
        items = [⟨d1, h⟩, ⟨d2, h⟩, ⟨d3, h2⟩, ⟨d4, h2⟩, ⟨d5, h2⟩, ⟨d6, h3⟩] →
        s.m_lastHash ≠ h → h ≠ h2 → h2 ≠ h3 →
        forwarded s'.effects = forwarded s.effects ++ [d1, d3, d6] := by
  obtain ⟨s', h1, h2, h3⟩ :=
    readyReadLoop_items o started items
      ({ s.emit (.socketBlockSignals true) with
          m_socket := some { sock with signalsBlocked := true } }) _ rfl
  refine ⟨s', ?_, ?_, ?_, ?_⟩
  · rw [← hin] at h1
    simp only [readyRead, hs]; exact h1
  · rw [h2]; simp [ClipboardServer.emit, forwarded_append, forwarded]
  · rw [h3]; simp [ClipboardServer.emit]
  · intro d1 d2 d3 d4 d5 d6 h h2' h3' hit hn1 hn2 hn3
    rw [h2, hit]
    have e1 : ¬ h = s.m_lastHash := fun e => hn1 e.symm
    have e2 : ¬ h2' = h := fun e => hn2 e.symm
    have e3 : ¬ h3' = h2' := fun e => hn3 e.symm
    simp [ClipboardServer.emit, forwarded_append, forwarded, changedItems_cons, e1, e2, e3,
      changedItems]

/-- C1 at the notifications with hashes `1, 1, 2, 2, 2, 3` and initial hash 0:
three items are forwarded and the last hash is 3. -/
theorem readyRead_duplicate_suppression_witness :
    ({ exampleServer with m_socket := some exampleSocket } : ClipboardServer).m_socket
        = some exampleSocket ∧
      exampleSocket.inbox = exampleItems.map some ∧
      ∃ s', readyRead stopsAtOnce true { exampleServer with m_socket := some exampleSocket }
          = .done s' ∧
        forwarded s'.effects =
          [[("text/plain", "p")], [("text/plain", "r")], [("text/plain", "u")]] ∧
        s'.m_lastHash = 3 := by
  obtain ⟨s', h1, h2, h3, _⟩ :=
    readyRead_duplicate_suppression stopsAtOnce true
      { exampleServer with m_socket := some exampleSocket } exampleSocket exampleItems rfl rfl
  refine ⟨rfl, rfl, s', h1, ?_, ?_⟩
  · rw [h2]; decide
  · rw [h3]; decide

/-! ## Popping tokens from a request -/

theorem toString_ofList_cons (cmd : String) (ts : List String) :
    (Arguments.ofList (cmd :: ts)).toString = (cmd, Arguments.upTo (cmd :: ts) 1) := by
  simp [Arguments.ofList, Arguments.toString, Arguments.toVariant, Arguments.length,
    Arguments.upTo, QVariant.toString]

theorem toString_ofList_nil :
    (Arguments.ofList []).toString.2.error = true := by
  simp [Arguments.ofList, Arguments.toString, Arguments.toVariant, Arguments.length,
    Arguments.error, QVariant.isValid]

theorem atEnd_upTo (ts : List String) (k : Nat) :
    (Arguments.upTo ts k).atEnd = decide (ts.length ≤ k) := rfl

theorem finished_upTo (ts : List String) (k : Nat) :
    (Arguments.upTo ts k).finished = decide (ts.length ≤ k) := by
  simp [Arguments.finished, Arguments.upTo, Arguments.atEnd, Arguments.length]

theorem error_upTo (ts : List String) (k : Nat) : (Arguments.upTo ts k).error = false := rfl

theorem remaining_upTo (ts : List String) (k : Nat) :
    (Arguments.upTo ts k).remaining = ts.length - k := rfl

theorem getElem_append_cons_length (pre : List String) (t : String) (suf : List String)
    (h : pre.length < (pre ++ t :: suf).length) : (pre ++ t :: suf)[pre.length] = t := by
  rw [List.getElem_append_right (Nat.le_refl _)]
  simp

/-- Popping a string consumes the next token. -/
theorem toString_upTo (pre : List String) (t : String) (suf : List String) (d : QVariant) :
    ((Arguments.upTo (pre ++ t :: suf) pre.length).setDefault d).toString
      = (t, Arguments.upTo (pre ++ t :: suf) (pre.length + 1)) := by
  simp [Arguments.toString, Arguments.toVariant, Arguments.length, Arguments.setDefault,
    Arguments.upTo, QVariant.toString, getElem_append_cons_length]

/-- Popping a string from an exhausted request marks it invalid. -/
theorem toString_upTo_atEnd (ts : List String) :
    (Arguments.upTo ts ts.length).toString.2.error = true := by
  simp [Arguments.toString, Arguments.toVariant, Arguments.length, Arguments.error,
    Arguments.upTo, QVariant.isValid]

/-- Popping an integer consumes a token that is one. -/
theorem toInt_upTo (pre : List String) (t : String) (suf : List String) (v : Int)
    (h : parseInt t = some v) (d : QVariant) :
    ((Arguments.upTo (pre ++ t :: suf) pre.length).setDefault d).toInt
      = (v, Arguments.upTo (pre ++ t :: suf) (pre.length + 1)) := by
  simp [Arguments.toInt, Arguments.toVariant, Arguments.length, Arguments.setDefault,
    Arguments.upTo, QVariant.toInt?, getElem_append_cons_length, h]

/-- Popping an integer with a default leaves a token that is none in place. -/
theorem toInt_upTo_default (pre : List String) (t : String) (suf : List String) (v : Int)
    (h : parseInt t = none) :
    ((Arguments.upTo (pre ++ t :: suf) pre.length).setDefault (.int v)).toInt
      = (v, Arguments.upTo (pre ++ t :: suf) pre.length) := by
  simp [Arguments.toInt, Arguments.toVariant, Arguments.length, Arguments.setDefault,
    Arguments.upTo, Arguments.back, QVariant.toInt?, QVariant.isValid,
    getElem_append_cons_length, h]

/-- Popping an integer with a default from an exhausted request gives the
default. -/
theorem toInt_upTo_atEnd (ts : List String) (v : Int) :
    ((Arguments.upTo ts ts.length).setDefault (.int v)).toInt
      = (v, Arguments.upTo ts ts.length) := by
  simp [Arguments.toInt, Arguments.toVariant, Arguments.length, Arguments.setDefault,
    Arguments.upTo, QVariant.toInt?, QVariant.isValid]

/-- The row loop on tokens that are all integers: it consumes them all. -/
theorem popRows_all_parse (suf : List String) :
    ∀ (pre : List String) (rows : List Int), (∀ t ∈ suf, (parseInt t).isSome = true) →
      popRows suf.length (Arguments.upTo (pre ++ suf) pre.length) rows
        = (Arguments.upTo (pre ++ suf) (pre ++ suf).length, rows ++ suf.filterMap parseInt) := by
  induction suf with
  | nil => intro pre rows _; simp [popRows]
  | cons t rest ih =>
    intro pre rows h
    obtain ⟨v, hv⟩ := Option.isSome_iff_exists.1 (h t (List.mem_cons_self _ _))
    have h0 := toInt_upTo pre t rest v hv .invalid
    have h1 : ((Arguments.upTo (pre ++ t :: rest) pre.length).setDefault .invalid)
        = Arguments.upTo (pre ++ t :: rest) pre.length := rfl
    rw [h1] at h0
    have ih' := ih (pre ++ [t]) (rows ++ [v]) (fun x hx => h x (List.mem_cons_of_mem _ hx))
    simp only [List.append_assoc, List.singleton_append, List.length_append,
      List.length_singleton] at ih'
    simp only [List.length_cons, popRows, finished_upTo, h0, error_upTo]
    simp [ih', hv]

/-! ## Row removal (C2, C8) -/

theorem eraseRow_nil {α : Type} (row : Int) : eraseRow ([] : List α) row = [] := by
  unfold eraseRow; split <;> simp

theorem withoutRowsFrom_of_lt {α : Type} (rows : List Int) (l : List α) :
    ∀ j : Nat, (∀ x ∈ rows, x < (j : Int)) → withoutRowsFrom rows j l = l := by
  induction l with
  | nil => intro j _; rfl
  | cons a as ih =>
    intro j h
    have hj : ¬ (j : Int) ∈ rows := fun hm => lt_irrefl _ (h _ hm)
    have h' : ∀ x ∈ rows, x < ((j + 1 : Nat) : Int) := fun x hx => by
      have := h x hx; push_cast; omega
    simp [withoutRowsFrom, hj, ih (j + 1) h']

theorem withoutRowsFrom_congr {α : Type} (rows rows' : List Int)
    (h : ∀ x, x ∈ rows ↔ x ∈ rows') (l : List α) :
    ∀ i : Nat, withoutRowsFrom rows i l = withoutRowsFrom rows' i l := by
  induction l with
  | nil => intro i; rfl
  | cons a as ih => intro i; simp [withoutRowsFrom, h, ih (i + 1)]

/-- Deleting the row at the largest index first leaves the rows at the smaller
indices where they were. -/
theorem withoutRowsFrom_eraseIdx {α : Type} (rest : List Int) (n : Nat)
    (hrest : ∀ x ∈ rest, x < (n : Int)) (l : List α) :
    ∀ i : Nat, i ≤ n →
      withoutRowsFrom rest i (l.eraseIdx (n - i)) = withoutRowsFrom ((n : Int) :: rest) i l := by
  induction l with
  | nil => intro i _; simp [withoutRowsFrom]
  | cons a as ih =>
    intro i hi
    rcases Nat.eq_or_lt_of_le hi with heq | hlt
    · subst heq
      have h1 : ∀ x ∈ rest, x < ((i : Nat) : Int) := hrest
      have h2 : ∀ x ∈ (i : Int) :: rest, x < ((i + 1 : Nat) : Int) := by
        intro x hx
        rcases List.mem_cons.1 hx with e | hx
        · subst e; push_cast; omega
        · have := hrest x hx; push_cast; omega
      simp [withoutRowsFrom, withoutRowsFrom_of_lt rest as i h1,
        withoutRowsFrom_of_lt _ as (i + 1) h2]
    · obtain ⟨k, hk⟩ : ∃ k, n - i = k + 1 := ⟨n - i - 1, by omega⟩
      have hk' : n - (i + 1) = k := by omega
      have hne : ¬ (i : Int) = (n : Int) := by omega
      have := ih (i + 1) (by omega)
      rw [hk'] at this
      by_cases hm : (i : Int) ∈ rest
      · simp [withoutRowsFrom, hk, hm, this]
      · simp [withoutRowsFrom, hk, hm, hne, this]

/-- Removing rows one by one in strictly descending order of index deletes
exactly the rows at these indices. -/
theorem foldl_eraseRow_descending {α : Type} (calls : List Int) :
    calls.Pairwise (fun a b => b < a) →
      ∀ l : List α, calls.foldl eraseRow l = withoutRows calls l := by
  induction calls with
  | nil =>
    intro _ l
    exact (withoutRowsFrom_of_lt [] l 0 (by simp)).symm
  | cons r rest ih =>
    intro hp l
    have hlt : ∀ x ∈ rest, x < r := (List.pairwise_cons.1 hp).1
    rw [List.foldl_cons, ih (List.pairwise_cons.1 hp).2]
    by_cases hr : r < 0
    · have h1 : ∀ x ∈ rest, x < ((0 : Nat) : Int) := fun x hx => by
        have := hlt x hx; push_cast; omega
      have h2 : ∀ x ∈ r :: rest, x < ((0 : Nat) : Int) := by
        intro x hx
        rcases List.mem_cons.1 hx with e | hx
        · subst e; push_cast; omega
        · exact h1 x hx
      simp only [eraseRow, hr, if_true, withoutRows]
      rw [withoutRowsFrom_of_lt _ l 0 h1, withoutRowsFrom_of_lt _ l 0 h2]
    · obtain ⟨n, hn⟩ : ∃ n : Nat, r = (n : Int) := ⟨r.toNat, by omega⟩
      subst hn
      have := withoutRowsFrom_eraseIdx rest n hlt l 0 (Nat.zero_le _)
      simp only [eraseRow, hr, if_false, withoutRows, Int.toNat_ofNat]
      simpa using this

theorem getElem?_withoutRowsFrom {α : Type} (rows : List Int) (l : List α) :
    ∀ i n : Nat, (∀ x ∈ rows, ((i + n : Nat) : Int) < x) →
      (withoutRowsFrom rows i l)[n]? = l[n]? := by
  induction l with
  | nil => intro i n _; simp [withoutRowsFrom]
  | cons a as ih =>
    intro i n h
    have hi : ¬ (i : Int) ∈ rows := fun hm => by
      have := h _ hm; push_cast at this; omega
    cases n with
    | zero => simp [withoutRowsFrom, hi]
    | succ m =>
      have h' : ∀ x ∈ rows, ((i + 1 + m : Nat) : Int) < x := fun x hx => by
        have := h x hx; push_cast at this ⊢; omega
      simp [withoutRowsFrom, hi, ih (i + 1) m h']

/-- Deleting rows at larger indices leaves the row at a smaller index alone. -/
theorem rowAt_withoutRows {α : Type} (rows : List Int) (l : List α) (r : Int)
    (h : ∀ x ∈ rows, r < x) : rowAt (withoutRows rows l) r = rowAt l r := by
  unfold rowAt
  by_cases hr : r < 0
  · simp [hr]
  · simp only [hr, if_false, withoutRows]
    apply getElem?_withoutRowsFrom
    intro x hx
    have := h x hx
    have e : ((0 + r.toNat : Nat) : Int) = r := by
      push_cast; omega
    rw [e]; exact this

theorem sortDescending_pairwise (rows : List Int) (hnd : rows.Nodup) :
    (sortDescending rows).Pairwise (fun a b => b < a) := by
  have hs : (sortDescending rows).Sorted (· ≥ ·) := List.sorted_insertionSort _ _
  have hn : (sortDescending rows).Nodup :=
    (List.perm_insertionSort _ _).nodup_iff.2 hnd
  exact hs.gt_of_ge hn

theorem mem_sortDescending (rows : List Int) (x : Int) :
    x ∈ sortDescending rows ↔ x ∈ rows :=
  (List.perm_insertionSort _ _).mem_iff

theorem removeRows_all_parse (tokens : List String)
    (h : ∀ t ∈ tokens, (parseInt t).isSome = true) :
    removeRows (Arguments.upTo ("remove" :: tokens) 1)
      = (Arguments.upTo ("remove" :: tokens) (tokens.length + 1), referencedRows tokens) := by
  cases tokens with
  | nil =>
    have h0 := toInt_upTo_atEnd ["remove"] 0
    simp only [List.length_singleton] at h0
    simp [removeRows, h0, popRows, remaining_upTo, referencedRows]
  | cons t rest =>
    obtain ⟨v, hv⟩ := Option.isSome_iff_exists.1 (h t (List.mem_cons_self _ _))
    have h0 := toInt_upTo ["remove"] t rest v hv (.int 0)
    have h1 := popRows_all_parse rest ["remove", t] [v]
      (fun x hx => h x (List.mem_cons_of_mem _ hx))
    simp only [List.length_singleton, List.singleton_append, List.cons_append,
      List.nil_append, List.length_cons, List.length_nil] at h0 h1
    simp [removeRows, h0, remaining_upTo, h1, referencedRows, hv]

theorem rows_emit (s : ClipboardServer) (e : Effect) (c : Nat) : (s.emit e).rows c = s.rows c := rfl

theorem rows_setRows (s : ClipboardServer) (c : Nat) (items : List MimeData) :
    (s.setRows c items).rows c = if c < s.m_wnd.tabs.length then items else [] := by
  unfold ClipboardServer.rows ClipboardServer.setRows
  by_cases h : c < s.m_wnd.tabs.length
  · simp [h, List.getElem?_modify_eq, List.getElem?_eq_getElem h]
  · simp [h, List.getElem?_eq_none (Nat.le_of_not_lt h)]

theorem rows_of_not_lt (s : ClipboardServer) (c : Nat) (h : ¬ c < s.m_wnd.tabs.length) :
    s.rows c = [] := by
  unfold ClipboardServer.rows
  simp [List.getElem?_eq_none (Nat.le_of_not_lt h)]

theorem rows_removeRow (s : ClipboardServer) (c : Nat) (row : Int) :
    (s.removeRow c row).rows c = eraseRow (s.rows c) row := by
  unfold ClipboardServer.removeRow
  simp only [rows_setRows, rows_emit]
  by_cases h : c < s.m_wnd.tabs.length
  · simp [ClipboardServer.emit, h]
  · simp [ClipboardServer.emit, h, rows_of_not_lt s c h, eraseRow_nil]

theorem effects_removeRow (s : ClipboardServer) (c : Nat) (row : Int) :
    (s.removeRow c row).effects = s.effects ++ [.removeRow c row] := rfl

theorem rows_foldl_removeRow (c : Nat) (calls : List Int) :
    ∀ s : ClipboardServer,
      (calls.foldl (fun s row => s.removeRow c row) s).rows c
        = calls.foldl eraseRow (s.rows c) := by
  induction calls with
  | nil => intro s; rfl
  | cons r rest ih => intro s; simp [ih, rows_removeRow]

theorem effects_foldl_removeRow (c : Nat) (calls : List Int) :
    ∀ s : ClipboardServer,
      (calls.foldl (fun s row => s.removeRow c row) s).effects
        = s.effects ++ calls.map (.removeRow c) := by
  induction calls with
  | nil => intro s; simp
  | cons r rest ih => intro s; simp [ih, effects_removeRow]

theorem removeCalls_append (c : Nat) (xs ys : List Effect) :
    removeCalls c (xs ++ ys) = removeCalls c xs ++ removeCalls c ys := by
  induction xs with
  | nil => rfl
  | cons e es ih =>
    cases e <;> simp [removeCalls, ih]
    split <;> simp

theorem removeCalls_map (c : Nat) (calls : List Int) :
    removeCalls c (calls.map (.removeRow c)) = calls := by
  induction calls with
  | nil => rfl
  | cons r rest ih => simp [removeCalls, ih]

theorem doCommand_remove (tokens : List String) (response : String) (t : Option Nat)
    (s : ClipboardServer) :
    doCommand (Arguments.ofList ("remove" :: tokens)) response t s
      = some (unlockAfter (t.getD 0)
          (cmdRemove (Arguments.upTo ("remove" :: tokens) 1) response (t.getD 0)
            (s.emit (.lock (t.getD 0))))) := by
  simp [doCommand, doCommandAux, toString_ofList_cons, error_upTo]

theorem effects_emit (s : ClipboardServer) (e : Effect) :
    (s.emit e).effects = s.effects ++ [e] := rfl

theorem cmdRemove_all_parse (tokens : List String) (response : String) (c : Nat)
    (s : ClipboardServer) (h : ∀ t ∈ tokens, (parseInt t).isSome = true) :
    cmdRemove (Arguments.upTo ("remove" :: tokens) 1) response c s
      = (.CommandSuccess, response,
          ((if (sortDescending (referencedRows tokens)).getLast? = some 0 then
              ((sortDescending (referencedRows tokens)).foldl
                (fun s row => s.removeRow c row) s).emit (.updateClipboard c)
            else (sortDescending (referencedRows tokens)).foldl
                (fun s row => s.removeRow c row) s).emit (.delayedSaveItems c 1000))) := by
  simp [cmdRemove, removeRows_all_parse tokens h, error_upTo]

/-- C2, amended: when the row arguments of `remove` are integers that are
pairwise distinct (row 0 when no row is given), the command ends, the
`removeRow` calls are made in strictly descending order of index, each call
finds at its index the item that stood there before the command, and the
rows left are the original rows with exactly the referenced ones deleted. -/
theorem remove_distinct_rows (tokens : List String) (c : Nat) (s : ClipboardServer)
    (hp : ∀ t ∈ tokens, (parseInt t).isSome = true)
    (hd : (referencedRows tokens).Nodup) :
    RemovesReferencedRows tokens c s := by
  have hpw := sortDescending_pairwise _ hd
  have hfold := effects_foldl_removeRow c (sortDescending (referencedRows tokens))
    (s.emit (.lock c))
  have hrows := rows_foldl_removeRow c (sortDescending (referencedRows tokens))
    (s.emit (.lock c))
  unfold RemovesReferencedRows
  refine ⟨.CommandSuccess, "",
      ((if (sortDescending (referencedRows tokens)).getLast? = some 0 then
              ((sortDescending (referencedRows tokens)).foldl
                (fun s row => s.removeRow c row) (s.emit (.lock c))).emit (.updateClipboard c)
            else (sortDescending (referencedRows tokens)).foldl
                (fun s row => s.removeRow c row) (s.emit (.lock c))).emit
          (.delayedSaveItems c 1000)).emit (.unlock c),
      [.lock c] ++ (sortDescending (referencedRows tokens)).map (.removeRow c) ++
      (if (sortDescending (referencedRows tokens)).getLast? = some 0
        then [.updateClipboard c] else []) ++ [.delayedSaveItems c 1000, .unlock c], ?_, ?_, ?_⟩
  · rw [doCommand_remove, cmdRemove_all_parse _ _ _ _ hp]; rfl
  · split <;> simp [effects_emit, hfold]
  · have hcalls : removeCalls c ([.lock c] ++
        (sortDescending (referencedRows tokens)).map (.removeRow c) ++
        (if (sortDescending (referencedRows tokens)).getLast? = some 0
          then [.updateClipboard c] else []) ++ [.delayedSaveItems c 1000, .unlock c])
        = sortDescending (referencedRows tokens) := by
      simp only [removeCalls_append, removeCalls_map]
      split <;> simp [removeCalls]
    rw [hcalls]
    refine ⟨hpw, ?_, ?_⟩
    · intro k hk
      rw [foldl_eraseRow_descending _ (hpw.sublist (List.take_sublist _ _))]
      apply rowAt_withoutRows
      intro x hx
      have hmem : (sortDescending (referencedRows tokens))[k]
          ∈ (sortDescending (referencedRows tokens)).drop k := by
        rw [List.drop_eq_getElem_cons hk]; exact List.mem_cons_self _ _
      exact List.Sorted.rel_of_mem_take_of_mem_drop hpw hx hmem
    · simp only [rows_emit]
      have e : ∀ (b : Prop) [Decidable b] (x : ClipboardServer),
          (if b then x.emit (.updateClipboard c) else x).rows c = x.rows c := by
        intro b _ x; split <;> rfl
      rw [e, hrows, rows_emit, foldl_eraseRow_descending _ hpw]
      exact withoutRowsFrom_congr _ _ (mem_sortDescending _) _ 0

/-- C2, amended, at `remove 3 1 4` on the first tab of the example window. -/
theorem remove_distinct_rows_witness :
    (∀ t ∈ ["3", "1", "4"], (parseInt t).isSome = true) ∧
      (referencedRows ["3", "1", "4"]).Nodup ∧
      RemovesReferencedRows ["3", "1", "4"] 0 exampleServer :=
  ⟨by decide, by decide,
    remove_distinct_rows ["3", "1", "4"] 0 exampleServer (by decide) (by decide)⟩

/-- C2 as stated fails at `remove 1 1`: the two `removeRow` calls carry the
same index 1, so they are not in strictly descending order (and the second
call removes the row that stood at index 2). -/
theorem remove_duplicate_rows_counterexample :
    ¬ RemovesReferencedRows ["1", "1"] 0 exampleServer := by
  rintro ⟨status, response, s', new, h1, h2, h3, -⟩
  have hv : (doCommand (Arguments.ofList ["remove", "1", "1"]) "" (some 0) exampleServer).map
      (fun r => r.2.2.effects)
      = some [.lock 0, .removeRow 0 1, .removeRow 0 1, .delayedSaveItems 0 1000, .unlock 0] := by
    decide
  rw [h1] at hv
  simp only [Option.map_some', Option.some.injEq] at hv
  rw [hv] at h2
  simp only [exampleServer, List.nil_append] at h2
  subst h2
  simp [removeCalls] at h3

/-- Popping an integer without default consumes a token that is none and marks
the request invalid. -/
theorem toInt_upTo_fail (pre : List String) (t : String) (suf : List String)
    (h : parseInt t = none) :
    ((Arguments.upTo (pre ++ t :: suf) pre.length).toInt).2.error = true := by
  simp [Arguments.toInt, Arguments.toVariant, Arguments.length, Arguments.error,
    Arguments.upTo, QVariant.toInt?, QVariant.isValid, getElem_append_cons_length, h]

/-- The row loop stops with the request marked invalid at the first token that
is not an integer. -/
theorem popRows_stops (bad : String) (rest : List String) (hb : parseInt bad = none)
    (good : List String) :
    ∀ (pre : List String) (rows : List Int) (n : Nat),
      (∀ t ∈ good, (parseInt t).isSome = true) → good.length < n →
      (popRows n (Arguments.upTo (pre ++ (good ++ bad :: rest)) pre.length) rows).1.error
        = true := by
  induction good with
  | nil =>
    intro pre rows n _ hn
    obtain ⟨m, rfl⟩ : ∃ m, n = m + 1 := ⟨n - 1, by simp at hn; omega⟩
    have h0 := toInt_upTo_fail pre bad rest hb
    simp only [List.nil_append, popRows, finished_upTo]
    simp [h0]
  | cons g gs ih =>
    intro pre rows n h hn
    obtain ⟨m, rfl⟩ : ∃ m, n = m + 1 := ⟨n - 1, by simp at hn; omega⟩
    obtain ⟨v, hv⟩ := Option.isSome_iff_exists.1 (h g (List.mem_cons_self _ _))
    have h0 := toInt_upTo pre g (gs ++ bad :: rest) v hv .invalid
    have h1 : ((Arguments.upTo (pre ++ g :: (gs ++ bad :: rest)) pre.length).setDefault
        .invalid) = Arguments.upTo (pre ++ g :: (gs ++ bad :: rest)) pre.length := rfl
    rw [h1] at h0
    have ih' := ih (pre ++ [g]) (rows ++ [v]) m
      (fun x hx => h x (List.mem_cons_of_mem _ hx)) (by simp at hn; omega)
    simp only [List.append_assoc, List.singleton_append, List.length_append,
      List.length_singleton] at ih'
    simp only [List.cons_append, popRows, finished_upTo, h0, error_upTo]
    simp [ih']

theorem exists_first_bad (tokens : List String) (h : ∃ t ∈ tokens, parseInt t = none) :
    ∃ good bad rest, tokens = good ++ bad :: rest ∧
      (∀ t ∈ good, (parseInt t).isSome = true) ∧ parseInt bad = none := by
  induction tokens with
  | nil => obtain ⟨t, ht, _⟩ := h; simp at ht
  | cons a as ih =>
    by_cases ha : parseInt a = none
    · exact ⟨[], a, as, rfl, by simp, ha⟩
    · have h' : ∃ t ∈ as, parseInt t = none := by
        obtain ⟨t, ht, hn⟩ := h
        rcases List.mem_cons.1 ht with e | ht
        · subst e; exact absurd hn ha
        · exact ⟨t, ht, hn⟩
      obtain ⟨good, bad, rest, e, hg, hb⟩ := ih h'
      refine ⟨a :: good, bad, rest, by simp [e], ?_, hb⟩
      intro t ht
      rcases List.mem_cons.1 ht with e | ht
      · subst e; exact Option.ne_none_iff_isSome.1 ha
      · exact hg t ht

/-- A request `remove` with a row argument that is not an integer is rejected
before any row is removed. -/
theorem cmdRemove_bad_token (tokens : List String) (response : String) (c : Nat)
    (s : ClipboardServer) (h : ∃ t ∈ tokens, parseInt t = none) :
    cmdRemove (Arguments.upTo ("remove" :: tokens) 1) response c s
      = (.CommandBadSyntax, response, s) := by
  obtain ⟨good, bad, rest, e, hg, hb⟩ := exists_first_bad tokens h
  subst e
  have herr : (removeRows (Arguments.upTo ("remove" :: (good ++ bad :: rest)) 1)).1.error
      = true := by
    cases good with
    | nil =>
      have h0 := toInt_upTo_default ["remove"] bad rest 0 hb
      have h1 := popRows_stops bad rest hb [] ["remove"] [0] (rest.length + 1) (by simp)
        (by simp)
      simp only [List.length_singleton, List.singleton_append, List.nil_append] at h0 h1
      simp only [removeRows, List.nil_append, h0, remaining_upTo, List.length_cons]
      simpa using h1
    | cons g gs =>
      obtain ⟨v, hv⟩ := Option.isSome_iff_exists.1 (hg g (List.mem_cons_self _ _))
      have h0 := toInt_upTo ["remove"] g (gs ++ bad :: rest) v hv (.int 0)
      have h1 := popRows_stops bad rest hb gs ["remove", g] [v] (gs.length + 1 + rest.length)
        (fun x hx => hg x (List.mem_cons_of_mem _ hx)) (by omega)
      simp only [List.length_singleton, List.singleton_append, List.cons_append,
        List.nil_append, List.length_cons, List.length_nil] at h0 h1
      simp only [removeRows, List.cons_append, h0, remaining_upTo, List.length_cons,
        List.length_append]
      have e : gs.length + (rest.length + 1) + 1 + 1 - (0 + 1 + 1)
          = gs.length + 1 + rest.length := by omega
      rw [e]; exact h1
  unfold cmdRemove
  generalize removeRows (Arguments.upTo ("remove" :: (good ++ bad :: rest)) 1) = r at herr
  obtain ⟨a, rows⟩ := r
  simp only at herr
  simp [herr]

/-- The last row of the descending order is the smallest one. -/
theorem getLast?_sorted_ge (l : List Int) (hs : l.Sorted (· ≥ ·)) (m : Int)
    (h : l.getLast? = some m) : m ∈ l ∧ ∀ x ∈ l, m ≤ x := by
  induction l with
  | nil => simp at h
  | cons a as ih =>
    cases as with
    | nil =>
      simp at h
      subst h
      simp
    | cons b bs =>
      rw [List.getLast?_cons_cons] at h
      have hs' := List.sorted_cons.1 hs
      obtain ⟨hm, hle⟩ := ih hs'.2 h
      refine ⟨List.mem_cons_of_mem _ hm, ?_⟩
      intro x hx
      rcases List.mem_cons.1 hx with e | hx
      · subst e
        have : x ≥ m := hs'.1 m hm
        exact this
      · exact hle x hx

theorem getLast?_sortDescending_eq_zero (rows : List Int) :
    (sortDescending rows).getLast? = some 0 ↔ ((0 : Int) ∈ rows ∧ ∀ r ∈ rows, 0 ≤ r) := by
  have hs : (sortDescending rows).Sorted (· ≥ ·) := List.sorted_insertionSort _ _
  constructor
  · intro h
    obtain ⟨hm, hle⟩ := getLast?_sorted_ge _ hs 0 h
    exact ⟨(mem_sortDescending _ _).1 hm, fun r hr => hle r ((mem_sortDescending _ _).2 hr)⟩
  · rintro ⟨h0, hge⟩
    have hne' : sortDescending rows ≠ [] := by
      intro e
      have := (mem_sortDescending rows 0).2 h0
      rw [e] at this
      simp at this
    have hl : (sortDescending rows).getLast? = some ((sortDescending rows).getLast hne') :=
      List.getLast?_eq_getLast _ hne'
    obtain ⟨hm, hle⟩ := getLast?_sorted_ge _ hs _ hl
    have h1 := hle 0 ((mem_sortDescending _ _).2 h0)
    have h2 := hge _ ((mem_sortDescending _ _).1 hm)
    rw [hl]
    congr 1
    omega

/-- What the test `rows.last() == 0` of `remove` amounts to: every request
`remove r1 ... rn` is answered, and when it is not rejected as bad syntax
`updateClipboard` is called on the target list if and only if the smallest
referenced row index is 0. -/
theorem remove_resyncs_iff_smallest_row_zero (tokens : List String) (c : Nat)
    (s : ClipboardServer) :
    ∃ status response s' new,
      doCommand (Arguments.ofList ("remove" :: tokens)) "" (some c) s
        = some (status, response, s') ∧
      s'.effects = s.effects ++ new ∧
      (status ≠ .CommandBadSyntax →
        (callsUpdateClipboard c new = true ↔
          ((0 : Int) ∈ referencedRows tokens ∧ ∀ r ∈ referencedRows tokens, 0 ≤ r))) := by
  by_cases hp : ∀ t ∈ tokens, (parseInt t).isSome = true
  · have hfold := effects_foldl_removeRow c (sortDescending (referencedRows tokens))
      (s.emit (.lock c))
    have hiff := getLast?_sortDescending_eq_zero (referencedRows tokens)
    refine ⟨.CommandSuccess, "",
      ((if (sortDescending (referencedRows tokens)).getLast? = some 0 then
              ((sortDescending (referencedRows tokens)).foldl
                (fun s row => s.removeRow c row) (s.emit (.lock c))).emit (.updateClipboard c)
            else (sortDescending (referencedRows tokens)).foldl
                (fun s row => s.removeRow c row) (s.emit (.lock c))).emit
          (.delayedSaveItems c 1000)).emit (.unlock c),
      [.lock c] ++ (sortDescending (referencedRows tokens)).map (.removeRow c) ++
      (if (sortDescending (referencedRows tokens)).getLast? = some 0
        then [.updateClipboard c] else []) ++ [.delayedSaveItems c 1000, .unlock c], ?_, ?_, ?_⟩
    · rw [doCommand_remove, cmdRemove_all_parse _ _ _ _ hp]; rfl
    · split <;> simp [effects_emit, hfold]
    · intro _
      rw [← hiff]
      unfold callsUpdateClipboard
      split <;> simp_all
  · have hb : ∃ t ∈ tokens, parseInt t = none := by
      push_neg at hp
      obtain ⟨t, ht, hn⟩ := hp
      exact ⟨t, ht, by simpa using hn⟩
    refine ⟨.CommandBadSyntax, "", (s.emit (.lock c)).emit (.unlock c),
      [.lock c, .unlock c], ?_, ?_, ?_⟩
    · rw [doCommand_remove, cmdRemove_bad_token _ _ _ _ hb]; rfl
    · simp [effects_emit]
    · intro h; exact absurd rfl h

/-- The statement `ResyncsIffRowZero` does not hold of the code at
`remove 0 -1`: the request is accepted and row 0 is among the referenced
rows, but `updateClipboard` is not called. -/
theorem remove_negative_row_counterexample :
    ¬ ResyncsIffRowZero ["0", "-1"] 0 exampleServer := by
  intro h
  have hv : doCommand (Arguments.ofList ["remove", "0", "-1"]) "" (some 0) exampleServer
      = some (.CommandSuccess, "",
          { exampleServer with
            m_wnd := { exampleWindow with
              tabs := [{ id := "main", items := [[("text/plain", "b")], [("text/plain", "c")]] },
                       { id := "work", items := [] }] },
            effects := [.lock 0, .removeRow 0 0, .removeRow 0 (-1),
                        .delayedSaveItems 0 1000, .unlock 0] }) := by
    decide
  have := h _ _ _ [.lock 0, .removeRow 0 0, .removeRow 0 (-1),
                        .delayedSaveItems 0 1000, .unlock 0] hv rfl (by decide)
  revert this
  decide

/-- On requests without a negative row index the test made after `remove`
agrees with the claim: `updateClipboard` is called on the target list if and
only if row 0 is among the referenced rows. -/
theorem remove_resyncs_without_negative_rows (tokens : List String) (c : Nat)
    (s : ClipboardServer) (hp : ∀ t ∈ tokens, (parseInt t).isSome = true)
    (hge : ∀ r ∈ referencedRows tokens, 0 ≤ r) :
    ∃ response s' new,
      doCommand (Arguments.ofList ("remove" :: tokens)) "" (some c) s
        = some (.CommandSuccess, response, s') ∧
      s'.effects = s.effects ++ new ∧
      (callsUpdateClipboard c new = true ↔ (0 : Int) ∈ referencedRows tokens) := by
  have hfold := effects_foldl_removeRow c (sortDescending (referencedRows tokens))
    (s.emit (.lock c))
  have hiff := getLast?_sortDescending_eq_zero (referencedRows tokens)
  refine ⟨"",
    ((if (sortDescending (referencedRows tokens)).getLast? = some 0 then
            ((sortDescending (referencedRows tokens)).foldl
              (fun s row => s.removeRow c row) (s.emit (.lock c))).emit (.updateClipboard c)
          else (sortDescending (referencedRows tokens)).foldl
              (fun s row => s.removeRow c row) (s.emit (.lock c))).emit
        (.delayedSaveItems c 1000)).emit (.unlock c),
    [.lock c] ++ (sortDescending (referencedRows tokens)).map (.removeRow c) ++
    (if (sortDescending (referencedRows tokens)).getLast? = some 0
      then [.updateClipboard c] else []) ++ [.delayedSaveItems c 1000, .unlock c], ?_, ?_, ?_⟩
  · rw [doCommand_remove, cmdRemove_all_parse _ _ _ _ hp]; rfl
  · split <;> simp [effects_emit, hfold]
  · have h0 : (callsUpdateClipboard c ([.lock c] ++
        (sortDescending (referencedRows tokens)).map (.removeRow c) ++
        (if (sortDescending (referencedRows tokens)).getLast? = some 0
          then [.updateClipboard c] else []) ++ [.delayedSaveItems c 1000, .unlock c]) = true)
        ↔ (sortDescending (referencedRows tokens)).getLast? = some 0 := by
      unfold callsUpdateClipboard
      split <;> simp_all
    rw [h0, hiff]
    exact ⟨fun h => h.1, fun h => ⟨h, hge⟩⟩

/-- C8 fails on the code at `remove 0 -1`.  The request is accepted, row 0 is
among the referenced rows, `removeRow(0)` is called and the first row is gone,
but `updateClipboard` is not called: the test `rows.last() == 0` looks at the
smallest index, which is -1.  The request `remove 0` on the same list does
call `updateClipboard`. -/
theorem remove_zero_negative_skips_resync :
    (∃ s', doCommand (Arguments.ofList ["remove", "0", "-1"]) "" (some 0) exampleServer
        = some (.CommandSuccess, "", s') ∧
      (0 : Int) ∈ referencedRows ["0", "-1"] ∧
      removeCalls 0 s'.effects = [0, -1] ∧
      s'.rows 0 = [[("text/plain", "b")], [("text/plain", "c")]] ∧
      callsUpdateClipboard 0 s'.effects = false) ∧
    (∃ s', doCommand (Arguments.ofList ["remove", "0"]) "" (some 0) exampleServer
        = some (.CommandSuccess, "", s') ∧
      removeCalls 0 s'.effects = [0] ∧
      callsUpdateClipboard 0 s'.effects = true) := by
  refine ⟨⟨_, rfl, ?_, ?_, ?_, ?_⟩, ⟨_, rfl, ?_, ?_⟩⟩ <;> decide

/-! ## Dispatch arity (C3) -/

theorem toString_upTo_one (cmd t : String) (suf : List String) :
    (Arguments.upTo (cmd :: t :: suf) 1).toString = (t, Arguments.upTo (cmd :: t :: suf) 2) :=
  toString_upTo [cmd] t suf .invalid

theorem toString_upTo_two (cmd a t : String) (suf : List String) :
    (Arguments.upTo (cmd :: a :: t :: suf) 2).toString
      = (t, Arguments.upTo (cmd :: a :: t :: suf) 3) :=
  toString_upTo [cmd, a] t suf .invalid

/-- Popping `[row=0]` never marks the request invalid and consumes at most
the next token. -/
theorem toInt_default_one (cmd t : String) (suf : List String) :
    ∃ v k, ((Arguments.upTo (cmd :: t :: suf) 1).setDefault (.int 0)).toInt
        = (v, Arguments.upTo (cmd :: t :: suf) k) ∧ k ≤ 2 := by
  cases h : parseInt t with
  | none => exact ⟨0, 1, toInt_upTo_default [cmd] t suf 0 h, by omega⟩
  | some v => exact ⟨v, 2, toInt_upTo [cmd] t suf v h (.int 0), le_refl _⟩

/-- C3, amended: for `show`, `hide`, `toggle`, `exit`, `menu`, `select`,
`length`, `size`, `count`, `removetab!`, `export` and `import`, every request
that carries more tokens than the command takes is answered with bad-syntax;
`config` with more than two tokens is answered with application-error when
the option is unknown or the configuration dialog is open, and with
bad-syntax otherwise. -/
theorem trailing_tokens_rejected (cmd : String) (n : Nat) (tokens : List String)
    (t : Option Nat) (s : ClipboardServer)
    (hc : (cmd, n) ∈ checkedArityCommands) (hn : n < tokens.length) :
    ∃ response s',
      doCommand (Arguments.ofList (cmd :: tokens)) "" t s
        = some (trailingTokenStatus cmd tokens s, response, s') := by
  unfold checkedArityCommands at hc
  rcases List.mem_cons.1 hc with h | hc
  · obtain ⟨rfl, rfl⟩ := Prod.mk.inj h
    obtain ⟨a, rest, rfl⟩ := List.exists_cons_of_length_pos hn
    simp [doCommand, doCommandAux, toString_ofList_cons, error_upTo, cmdShow, atEnd_upTo,
      finished_upTo, trailingTokenStatus, unlockAfter]
  rcases List.mem_cons.1 hc with h | hc
  · obtain ⟨rfl, rfl⟩ := Prod.mk.inj h
    obtain ⟨a, rest, rfl⟩ := List.exists_cons_of_length_pos hn
    simp [doCommand, doCommandAux, toString_ofList_cons, error_upTo, cmdHide, atEnd_upTo,
      finished_upTo, trailingTokenStatus, unlockAfter]
  rcases List.mem_cons.1 hc with h | hc
  · obtain ⟨rfl, rfl⟩ := Prod.mk.inj h
    obtain ⟨a, rest, rfl⟩ := List.exists_cons_of_length_pos hn
    simp [doCommand, doCommandAux, toString_ofList_cons, error_upTo, cmdToggle, atEnd_upTo,
      finished_upTo, trailingTokenStatus, unlockAfter]
  rcases List.mem_cons.1 hc with h | hc
  · obtain ⟨rfl, rfl⟩ := Prod.mk.inj h
    obtain ⟨a, rest, rfl⟩ := List.exists_cons_of_length_pos hn
    simp [doCommand, doCommandAux, toString_ofList_cons, error_upTo, cmdExit, atEnd_upTo,
      finished_upTo, trailingTokenStatus, unlockAfter]
  rcases List.mem_cons.1 hc with h | hc
  · obtain ⟨rfl, rfl⟩ := Prod.mk.inj h
    obtain ⟨a, rest, rfl⟩ := List.exists_cons_of_length_pos hn
    simp [doCommand, doCommandAux, toString_ofList_cons, error_upTo, cmdMenu, atEnd_upTo,
      finished_upTo, trailingTokenStatus, unlockAfter]
  rcases List.mem_cons.1 hc with h | hc
  · obtain ⟨rfl, rfl⟩ := Prod.mk.inj h
    obtain ⟨a, b, rest, rfl⟩ : ∃ a b rest, tokens = a :: b :: rest := by
      match tokens, hn with
      | a :: b :: rest, _ => exact ⟨a, b, rest, rfl⟩
    obtain ⟨v, k, hv, hk⟩ := toInt_default_one "select" a (b :: rest)
    have hf : ¬ (rest.length + 1 + 1 + 1 ≤ k) := by omega
    simp [doCommand, doCommandAux, toString_ofList_cons, error_upTo, cmdSelect, hv,
      finished_upTo, hf, trailingTokenStatus, unlockAfter]
  rcases List.mem_cons.1 hc with h | hc
  · obtain ⟨rfl, rfl⟩ := Prod.mk.inj h
    obtain ⟨a, rest, rfl⟩ := List.exists_cons_of_length_pos hn
    simp [doCommand, doCommandAux, toString_ofList_cons, error_upTo, cmdLength, atEnd_upTo,
      finished_upTo, trailingTokenStatus, unlockAfter]
  rcases List.mem_cons.1 hc with h | hc
  · obtain ⟨rfl, rfl⟩ := Prod.mk.inj h
    obtain ⟨a, rest, rfl⟩ := List.exists_cons_of_length_pos hn
    simp [doCommand, doCommandAux, toString_ofList_cons, error_upTo, cmdLength, atEnd_upTo,
      finished_upTo, trailingTokenStatus, unlockAfter]
  rcases List.mem_cons.1 hc with h | hc
  · obtain ⟨rfl, rfl⟩ := Prod.mk.inj h
    obtain ⟨a, rest, rfl⟩ := List.exists_cons_of_length_pos hn
    simp [doCommand, doCommandAux, toString_ofList_cons, error_upTo, cmdLength, atEnd_upTo,
      finished_upTo, trailingTokenStatus, unlockAfter]
  rcases List.mem_cons.1 hc with h | hc
  · obtain ⟨rfl, rfl⟩ := Prod.mk.inj h
    obtain ⟨a, b, c, rest, rfl⟩ : ∃ a b c rest, tokens = a :: b :: c :: rest := by
      match tokens, hn with
      | a :: b :: c :: rest, _ => exact ⟨a, b, c, rest, rfl⟩
    by_cases ho : a ∈ s.cm.options
    · by_cases hvis : s.cm.visible = true
      · simp [doCommand, doCommandAux, toString_ofList_cons, error_upTo, cmdConfig,
          atEnd_upTo, toString_upTo_one, toString_upTo_two, trailingTokenStatus, unlockAfter,
          ho, hvis, ClipboardServer.emit]
      · simp [doCommand, doCommandAux, toString_ofList_cons, error_upTo, cmdConfig,
          atEnd_upTo, toString_upTo_one, toString_upTo_two, trailingTokenStatus, unlockAfter,
          ho, hvis, ClipboardServer.emit]
    · simp [doCommand, doCommandAux, toString_ofList_cons, error_upTo, cmdConfig,
        atEnd_upTo, toString_upTo_one, toString_upTo_two, trailingTokenStatus, unlockAfter,
        ho, ClipboardServer.emit]
  rcases List.mem_cons.1 hc with h | hc
  · obtain ⟨rfl, rfl⟩ := Prod.mk.inj h
    obtain ⟨a, b, rest, rfl⟩ : ∃ a b rest, tokens = a :: b :: rest := by
      match tokens, hn with
      | a :: b :: rest, _ => exact ⟨a, b, rest, rfl⟩
    simp [doCommand, doCommandAux, toString_ofList_cons, error_upTo, cmdRemovetab, atEnd_upTo,
      toString_upTo_one, trailingTokenStatus, unlockAfter]
  rcases List.mem_cons.1 hc with h | hc
  · obtain ⟨rfl, rfl⟩ := Prod.mk.inj h
    obtain ⟨a, b, rest, rfl⟩ : ∃ a b rest, tokens = a :: b :: rest := by
      match tokens, hn with
      | a :: b :: rest, _ => exact ⟨a, b, rest, rfl⟩
    simp [doCommand, doCommandAux, toString_ofList_cons, error_upTo, cmdExport, atEnd_upTo,
      toString_upTo_one, trailingTokenStatus, unlockAfter]
  rcases List.mem_cons.1 hc with h | hc
  · obtain ⟨rfl, rfl⟩ := Prod.mk.inj h
    obtain ⟨a, b, rest, rfl⟩ : ∃ a b rest, tokens = a :: b :: rest := by
      match tokens, hn with
      | a :: b :: rest, _ => exact ⟨a, b, rest, rfl⟩
    simp [doCommand, doCommandAux, toString_ofList_cons, error_upTo, cmdImport, atEnd_upTo,
      toString_upTo_one, trailingTokenStatus, unlockAfter]
  exact absurd hc (List.not_mem_nil _)

/-- C3, amended, at `show extra-arg`. -/
theorem trailing_tokens_rejected_witness :
    ("show", 0) ∈ checkedArityCommands ∧ 0 < ["extra-arg"].length ∧
      ∃ response s',
        doCommand (Arguments.ofList ["show", "extra-arg"]) "" none exampleServer
          = some (.CommandBadSyntax, response, s') :=
  ⟨by decide, by decide,
    trailing_tokens_rejected "show" 0 ["extra-arg"] none exampleServer (by decide) (by decide)⟩

/-- C3 as stated fails for `config`: with the configuration dialog open,
`config check_clipboard true extra` is answered with application-error, not
with bad-syntax. -/
theorem trailing_tokens_counterexample :
    ¬ ∀ p ∈ fixedArityCommands, RejectsTrailingTokens p.1 p.2 := by
  intro h
  obtain ⟨response, s', e⟩ := h ("config", 2) (by decide)
    ["check_clipboard", "true", "extra"] none exampleServerDialogOpen (by decide)
  have hv : (doCommand (Arguments.ofList ["config", "check_clipboard", "true", "extra"]) ""
      none exampleServerDialogOpen).map (·.1) = some .CommandError := by
    decide
  rw [e] at hv
  simp at hv

/-! ## Configuration (C4) -/

theorem cm_emit (s : ClipboardServer) (e : Effect) : (s.emit e).cm = s.cm := rfl

theorem value_setValue (cm : ConfigurationManager) (name : String) (v : QVariant) :
    (cm.setValue name v).value name = v := by
  simp [ConfigurationManager.setValue, ConfigurationManager.value, List.lookup]

/-- C4: the configuration guard of `config option value`.  For every known
option and every value: while the configuration dialog is open the request
is answered with application-error and the configuration manager is left as
it was, with no `setValue` and no `saveSettings` call; with the dialog closed
the request succeeds, the store then holds the value under the option, and
the store has been saved. -/
theorem config_mutation_guard (option value : String) (t : Option Nat) (s : ClipboardServer)
    (ho : option ∈ s.cm.options) :
    ∃ status response s' new,
      doCommand (Arguments.ofList ["config", option, value]) "" t s
        = some (status, response, s') ∧
      s'.effects = s.effects ++ new ∧
      (s.cm.visible = true →
        status = .CommandError ∧ s'.cm = s.cm ∧
        (∀ e ∈ new, e ≠ .saveSettings ∧ ∀ n v, e ≠ .setValue n v)) ∧
      (s.cm.visible = false →
        status = .CommandSuccess ∧ s'.cm.value option = .str value ∧
        s'.cm.saved = s'.cm.values ∧
        new = [.lock (t.getD 0), .setValue option (.str value), .saveSettings,
               .unlock (t.getD 0)]) := by
  by_cases hvis : s.cm.visible = true
  · refine ⟨.CommandError,
      "To modify options from command line you must first close the CopyQ Configuration dialog!\n",
      (s.emit (.lock (t.getD 0))).emit (.unlock (t.getD 0)),
      [.lock (t.getD 0), .unlock (t.getD 0)], ?_, ?_, ?_, ?_⟩
    · simp [doCommand, doCommandAux, toString_ofList_cons, error_upTo, cmdConfig,
        atEnd_upTo, toString_upTo_one, unlockAfter, ho, hvis, ClipboardServer.emit]
    · simp [effects_emit]
    · intro _
      refine ⟨rfl, rfl, ?_⟩
      intro e he
      simp only [List.mem_cons, List.mem_singleton, List.not_mem_nil, or_false] at he
      rcases he with rfl | rfl <;> simp
    · intro h; rw [h] at hvis; cases hvis
  · have hvis' : s.cm.visible = false := by simpa using hvis
    refine ⟨.CommandSuccess, "",
      (((s.emit (.lock (t.getD 0))).cmSetValue option (.str value)).cmSaveSettings).emit
        (.unlock (t.getD 0)),
      [.lock (t.getD 0), .setValue option (.str value), .saveSettings, .unlock (t.getD 0)],
      ?_, ?_, ?_, ?_⟩
    · simp [doCommand, doCommandAux, toString_ofList_cons, error_upTo, cmdConfig,
        atEnd_upTo, toString_upTo_one, toString_upTo_two, unlockAfter, cm_emit, ho, hvis']
    · simp [effects_emit, ClipboardServer.cmSetValue, ClipboardServer.cmSaveSettings]
    · intro h; exact absurd h hvis
    · intro _
      refine ⟨rfl, ?_, rfl, rfl⟩
      exact value_setValue _ _ _

/-- C4 at `config check_clipboard true` on the example server, whose
configuration dialog is closed. -/
theorem config_mutation_guard_witness :
    "check_clipboard" ∈ exampleServer.cm.options ∧
      ∃ status response s' new,
        doCommand (Arguments.ofList ["config", "check_clipboard", "true"]) "" none exampleServer
          = some (status, response, s') ∧
        s'.effects = exampleServer.effects ++ new ∧
        (exampleServer.cm.visible = true →
          status = .CommandError ∧ s'.cm = exampleServer.cm ∧
          (∀ e ∈ new, e ≠ .saveSettings ∧ ∀ n v, e ≠ .setValue n v)) ∧
        (exampleServer.cm.visible = false →
          status = .CommandSuccess ∧ s'.cm.value "check_clipboard" = .str "true" ∧
          s'.cm.saved = s'.cm.values ∧
          new = [.lock 0, .setValue "check_clipboard" (.str "true"), .saveSettings,
                 .unlock 0]) :=
  ⟨by decide, config_mutation_guard "check_clipboard" "true" none exampleServer (by decide)⟩

/-! ## Monitor supervisor (C5, C6, C7) -/

theorem stopMonitoring_of_no_monitor (o : StopAttempts) (s : ClipboardServer)
    (h : s.m_monitor = none) :
    stopMonitoring o s = .done (s.cmSetValue "_last_hash" (.uint s.m_lastHash)) := by
  have h' : (s.cmSetValue "_last_hash" (.uint s.m_lastHash)).m_monitor = none := h
  simp only [stopMonitoring]
  split
  · rfl
  · rename_i mon hm
    rw [h'] at hm
    cases hm

/-- What `stopMonitoring` does when a process handle exists: the write of the
last hash comes first, no crash message is logged, no process is created and
the slot `monitorStateChanged` is never entered; with a socket the method
ends with handle and socket released, without one it stops short at the call
through the null socket. -/
theorem stopMonitoring_adds (o : StopAttempts) (s : ClipboardServer) (mon : QProcess)
    (hm : s.m_monitor = some mon) :
    ∃ newLog newEffects,
      StopAdds s (stopMonitoring o s).state newLog newEffects ∧
      crashMessage ∉ newLog ∧ Effect.newProcess ∉ newEffects ∧
      (s.m_socket ≠ none →
        stopMonitoring o s = .done (stopMonitoring o s).state ∧
        (stopMonitoring o s).state.m_monitor = none ∧
        (stopMonitoring o s).state.m_socket = none) ∧
      (s.m_socket = none →
        stopMonitoring o s = .failed .nullSocket (stopMonitoring o s).state ∧
        (stopMonitoring o s).state.m_monitor ≠ none) := by
  obtain ⟨cs, ts, ks⟩ := o
  obtain ⟨sock, wnd, m, h, cm, log, eff, cb, sel, ed, wf, rf, x11⟩ := s
  simp only at hm
  subst hm
  obtain ⟨st, con, econ, err⟩ := mon
  cases st <;> cases cs <;> cases ts <;> cases ks <;> cases sock <;>
    simp [StopAdds, stopMonitoring, stopByClose, stopByTerminate, stopByKill, processStops,
      monitorRuns, Outcome.andThen, Outcome.state, ClipboardServer.cmSetValue,
      ClipboardServer.emit, ClipboardServer.logMsg, crashMessage] <;>
    exact ⟨_, _, ⟨rfl, rfl⟩, by decide, by decide⟩
theorem stderr_line_ne_crashMessage (err : String) :
    ("Clipboard Monitor: " ++ err, LogLevel.LogError) ≠ crashMessage := by
  intro h
  have h1 : ("Clipboard Monitor: " ++ err).data = "Clipboard monitor crashed!".data :=
    congrArg String.data (congrArg Prod.fst h)
  have h2 := congrArg (fun l => l[10]?) h1
  simp [String.data_append] at h2

theorem lookup_filter_ne (l : List (String × QVariant)) (k name : String) (h : name ≠ k) :
    List.lookup name (l.filter fun p => p.1 != k) = List.lookup name l := by
  induction l with
  | nil => rfl
  | cons p ps ih =>
    obtain ⟨a, b⟩ := p
    by_cases ha : a = k
    · subst ha
      have : (name == a) = false := by simpa using h
      simp [List.filter_cons, List.lookup, this, ih]
    · have hak : (a != k) = true := by simpa using ha
      simp only [List.filter_cons, hak, if_true, List.lookup]
      cases hn : name == a <;> simp [ih]

theorem value_setValue_ne (cm : ConfigurationManager) (k name : String) (v : QVariant)
    (h : name ≠ k) : (cm.setValue k v).value name = cm.value name := by
  have hk : (name == k) = false := by simpa using h
  simp [ConfigurationManager.setValue, ConfigurationManager.value, List.lookup, hk,
    lookup_filter_ne _ _ _ h]
theorem andThen_done (s : ClipboardServer) (k : ClipboardServer → Outcome) :
    (Outcome.done s).andThen k = k s := rfl

theorem andThen_of_done (r : Outcome) (k : ClipboardServer → Outcome)
    (h : r = .done r.state) : r.andThen k = k r.state := by
  cases r with
  | done s => rfl
  | failed f s => cases h

/-- What `startMonitoring` does without a process handle: it creates one
process, logs no crash message, and leaves a handle. -/
theorem startMonitoring_spawns (started : Bool) (s : ClipboardServer)
    (h : s.m_monitor = none) :
    ∃ newLog newEffects,
      (startMonitoring started s).log = s.log ++ newLog ∧ crashMessage ∉ newLog ∧
      (startMonitoring started s).effects = s.effects ++ newEffects ∧
      newEffects.count .newProcess = 1 ∧
      (startMonitoring started s).m_monitor ≠ none := by
  cases started
  · refine ⟨[("Clipboard Monitor: Starting", .LogNote),
        ("Cannot start clipboard monitor!", .LogError)],
      [.newProcess, .startProcess, .waitForStarted 2000, .monitorDeleteLater, .exit 10],
      ?_, by decide, ?_, by decide, ?_⟩ <;>
    simp [startMonitoring, h, logStateChanged, ClipboardServer.emit, ClipboardServer.logMsg]
  · refine ⟨[("Clipboard Monitor: Starting", .LogNote), ("Clipboard Monitor: Started", .LogNote)],
      [.newProcess, .startProcess, .waitForStarted 2000, .setAutoUpdate 0 true],
      ?_, by decide, ?_, by decide, ?_⟩ <;>
    simp [startMonitoring, h, logStateChanged, ClipboardServer.emit, ClipboardServer.logMsg]

/-- Restart on crash, with the monitor connection registered: one `NotRunning`
notification handled by `monitorStateChanged` logs the crash message exactly
once and makes exactly one restart, which creates exactly one process. -/
theorem monitorStateChanged_restarts_once (o : StopAttempts) (started : Bool)
    (s : ClipboardServer) (mon : QProcess) (sock : QLocalSocket)
    (hm : s.m_monitor = some mon) (hs : s.m_socket = some sock) :
    ∃ s' newLog newEffects,
      monitorStateChanged o started .NotRunning s = .done s' ∧
      s'.log = s.log ++ newLog ∧ newLog.count crashMessage = 1 ∧
      s'.effects = s.effects ++ newEffects ∧ newEffects.count .newProcess = 1 ∧
      s'.m_monitor ≠ none := by
  have hm2 : (((({ s with m_monitor := some { mon with stderr := "" } } : ClipboardServer).logMsg
      ("Clipboard Monitor: " ++ mon.stderr) .LogError).logMsg
        "Clipboard monitor crashed!" .LogError).emit
          (.showError "Clipboard monitor crashed!")).m_monitor
      = some { mon with stderr := "" } := rfl
  obtain ⟨l1, e1, hadd, hc1, hn1, hdone, -⟩ := stopMonitoring_adds o _ _ hm2
  obtain ⟨hd, hmn, -⟩ := hdone (by
    show s.m_socket ≠ none
    rw [hs]; simp)
  obtain ⟨l2, e2, hl2, hc2, he2, hn2, hm3⟩ := startMonitoring_spawns started _ hmn
  obtain ⟨hlog, heff, -, -, -⟩ := hadd
  refine ⟨_, [("Clipboard Monitor: " ++ mon.stderr, .LogError), crashMessage] ++ l1 ++ l2,
    [.showError "Clipboard monitor crashed!",
      .setValue "_last_hash" (.uint s.m_lastHash)] ++ e1 ++ e2, ?_, ?_, ?_, ?_, ?_, hm3⟩
  · simp only [monitorStateChanged, monitorStandardError, hm, andThen_done]
    exact andThen_of_done _ _ hd
  · rw [hl2, hlog]
    simp [ClipboardServer.emit, ClipboardServer.logMsg, crashMessage]
  · have h0 : ("Clipboard Monitor: " ++ mon.stderr, LogLevel.LogError) ≠ crashMessage :=
      stderr_line_ne_crashMessage _
    simp only [List.count_append, List.count_cons, List.count_nil,
      List.count_eq_zero_of_not_mem hc1, List.count_eq_zero_of_not_mem hc2]
    simp [h0]
  · rw [he2, heff]
    simp [ClipboardServer.emit, ClipboardServer.logMsg]
  · simp only [List.count_append, List.count_cons, List.count_nil,
      List.count_eq_zero_of_not_mem hn1, hn2]
    simp

/-- No restart after an explicit stop: once `stopMonitoring` has ended, the
exit of the old process reaches no slot; the state stays as it is. -/
theorem processStateChanged_after_stop (o o' : StopAttempts) (started : Bool)
    (s s' : ClipboardServer) (newState : ProcessState) (mon : QProcess)
    (hm : s.m_monitor = some mon) (h : stopMonitoring o s = .done s') :
    processStateChanged o' started newState s' = .done s' := by
  obtain ⟨_, _, -, -, -, hdone, hfail⟩ := stopMonitoring_adds o s mon hm
  have hnone : s'.m_monitor = none := by
    by_cases hs : s.m_socket = none
    · rw [(hfail hs).1] at h; cases h
    · have := (hdone hs).2.1
      rw [h] at this
      exact this
  simp [processStateChanged, hnone]

/-- C5 fails on the code when the monitor process exits before a monitor
connection is registered: `monitorStateChanged` logs the crash message and
enters `stopMonitoring`, which calls `deleteLater()` through the null
`m_socket`; no process is created. -/
theorem monitorStateChanged_without_socket :
    ∃ s', monitorStateChanged stopsAtOnce true .NotRunning exampleServerNoLink
        = .failed .nullSocket s' ∧
      s'.log.count crashMessage = 1 ∧ Effect.newProcess ∉ s'.effects := by
  refine ⟨_, rfl, ?_, ?_⟩ <;> decide
/-- C6: hash persistence across a monitor restart.  For every server state
and every behaviour of the process, the first thing `stopMonitoring` does is
to write the current last hash under `_last_hash`: the write precedes every
other call it makes (disconnecting the signal, closing the socket,
`terminate`, `kill`), on the paths that end and on the one that stops short.
The store then holds that hash, and in every later state whose store still
holds it, the settings message that `newMonitorConnection` pushes through
`loadMonitorSettings` on a writable connection carries under `_last_hash`
exactly the last hash of the state in which `stopMonitoring` was called. -/
theorem last_hash_persisted (o : StopAttempts) (s : ClipboardServer) :
    (∃ newEffects, (stopMonitoring o s).state.effects
        = s.effects ++ .setValue "_last_hash" (.uint s.m_lastHash) :: newEffects) ∧
    (stopMonitoring o s).state.cm.value "_last_hash" = .uint s.m_lastHash ∧
    ∀ (s2 : ClipboardServer) (incoming : QLocalSocket),
      s2.cm.value "_last_hash" = (stopMonitoring o s).state.cm.value "_last_hash" →
      incoming.writable = true →
      ∃ settings,
        (newMonitorConnection incoming s2).effects.getLast?
          = some (.writeMessage (.settings settings)) ∧
        settings.lookup "_last_hash" = some (.uint s.m_lastHash) := by
  have hadd : ∃ newLog newEffects, StopAdds s (stopMonitoring o s).state newLog newEffects := by
    cases hm : s.m_monitor with
    | none =>
      rw [stopMonitoring_of_no_monitor o s hm]
      exact ⟨[], [], by simp [StopAdds, Outcome.state, ClipboardServer.cmSetValue,
        ClipboardServer.emit]⟩
    | some mon =>
      obtain ⟨l, e, h, -⟩ := stopMonitoring_adds o s mon hm
      exact ⟨l, e, h⟩
  obtain ⟨l, e, -, heff, hcm, -, -⟩ := hadd
  have hval : (stopMonitoring o s).state.cm.value "_last_hash" = .uint s.m_lastHash := by
    rw [hcm]; exact value_setValue _ _ _
  refine ⟨⟨e, heff⟩, hval, ?_⟩
  intro s2 incoming h2 hw
  rw [hval] at h2
  cases hs : s2.m_socket <;>
    simp [newMonitorConnection, loadMonitorSettings, hs, hw, ClipboardServer.emit, h2,
      List.lookup]

/-- C7, amended: without a process handle `stopMonitoring` ends and changes
nothing but the configuration key `_last_hash`, which it sets to the current
last hash: monitor handle, monitor socket, last hash, log and every other
configuration key are as before the call, and so is the whole observable
state when the store already held the current last hash. -/
theorem stopMonitoring_without_monitor (o : StopAttempts) (s : ClipboardServer)
    (h : s.m_monitor = none) :
    ∃ s', stopMonitoring o s = .done s' ∧
      s'.m_monitor = s.m_monitor ∧ s'.m_socket = s.m_socket ∧
      s'.m_lastHash = s.m_lastHash ∧ s'.log = s.log ∧
      s'.cm.value "_last_hash" = .uint s.m_lastHash ∧
      (∀ name, name ≠ "_last_hash" → s'.cm.value name = s.cm.value name) ∧
      (s.cm.value "_last_hash" = .uint s.m_lastHash → SameObservableState s s') := by
  refine ⟨_, stopMonitoring_of_no_monitor o s h, rfl, rfl, rfl, rfl, value_setValue _ _ _,
    fun name hn => value_setValue_ne _ _ _ _ hn, ?_⟩
  intro hv
  refine ⟨rfl, rfl, rfl, ?_, rfl⟩
  intro name
  by_cases hn : name = "_last_hash"
  · subst hn
    rw [hv]; exact value_setValue _ _ _
  · exact value_setValue_ne _ _ _ _ hn

/-- C7, amended, at the example server, which has no monitor. -/
theorem stopMonitoring_without_monitor_witness :
    exampleServer.m_monitor = none ∧
      ∃ s', stopMonitoring stopsAtOnce exampleServer = .done s' ∧
        s'.m_monitor = exampleServer.m_monitor ∧ s'.m_socket = exampleServer.m_socket ∧
        s'.m_lastHash = exampleServer.m_lastHash ∧ s'.log = exampleServer.log ∧
        s'.cm.value "_last_hash" = .uint exampleServer.m_lastHash ∧
        (∀ name, name ≠ "_last_hash" → s'.cm.value name = exampleServer.cm.value name) ∧
        (exampleServer.cm.value "_last_hash" = .uint exampleServer.m_lastHash →
          SameObservableState exampleServer s') :=
  ⟨rfl, stopMonitoring_without_monitor stopsAtOnce exampleServer rfl⟩

/-- C7 as stated fails when the last hash differs from the stored one: with
no monitor, last hash 5 and 0 stored under `_last_hash`, `stopMonitoring`
stores 5, so the configuration store is not as before the call. -/
theorem stopMonitoring_writes_store_counterexample :
    ¬ ∀ (o : StopAttempts) (s : ClipboardServer), s.m_monitor = none →
        ∃ s', stopMonitoring o s = .done s' ∧ SameObservableState s s' := by
  intro h
  obtain ⟨s', h1, -, -, -, h2, -⟩ := h stopsAtOnce exampleServerHash5 rfl
  rw [stopMonitoring_of_no_monitor _ _ rfl] at h1
  cases h1
  have := h2 "_last_hash"
  revert this
  decide

/-! ## The dispatcher answers every request -/

theorem exists_split_at (ts : List String) (k : Nat) (h : k < ts.length) :
    ∃ pre t suf, ts = pre ++ t :: suf ∧ pre.length = k :=
  ⟨ts.take k, ts[k], ts.drop (k + 1), by
      have := List.take_append_drop k ts
      rw [List.drop_eq_getElem_cons h] at this
      exact this.symm,
    by rw [List.length_take]; omega⟩

theorem isSome_ite {α : Type} (c : Prop) [Decidable c] (x y : Option α)
    (hx : c → x.isSome = true) (hy : ¬ c → y.isSome = true) :
    (if c then x else y).isSome = true := by
  by_cases h : c
  · rw [if_pos h]; exact hx h
  · rw [if_neg h]; exact hy h

theorem isSome_map_eq {α β : Type} (f : α → β) (x : Option α) :
    (x.map f).isSome = x.isSome := by
  cases x <;> rfl

/-- Enough fuel gives a result: the dispatcher answers when the bound exceeds
the number of tokens left. -/
theorem doCommandAux_isSome (ts : List String) :
    ∀ (fuel k : Nat) (response : String) (t : Option Nat) (s : ClipboardServer),
      ts.length - k < fuel →
      (doCommandAux fuel (Arguments.upTo ts k) response t s).isSome = true := by
  intro fuel
  induction fuel with
  | zero => intro k response t s h; omega
  | succ n ih =>
    intro k response t s h
    by_cases hk : k < ts.length
    · obtain ⟨pre, cmd, suf, rfl, rfl⟩ := exists_split_at ts k hk
      have h0 := toString_upTo pre cmd suf .invalid
      have h1 : ((Arguments.upTo (pre ++ cmd :: suf) pre.length).setDefault .invalid)
          = Arguments.upTo (pre ++ cmd :: suf) pre.length := rfl
      rw [h1] at h0
      simp only [doCommandAux, h0, error_upTo]
      by_cases htab : cmd = "tab"
      · subst htab
        simp only [Bool.false_eq_true, if_false]
        simp only [String.reduceEq, if_false, if_true, false_or, and_false, or_self]
        cases suf with
        | nil => simp [cmdTab, atEnd_upTo]
        | cons name rest =>
          have h2 := toString_upTo (pre ++ ["tab"]) name rest .invalid
          have h3 : ((Arguments.upTo ((pre ++ ["tab"]) ++ name :: rest)
              (pre ++ ["tab"]).length).setDefault .invalid)
              = Arguments.upTo ((pre ++ ["tab"]) ++ name :: rest) (pre ++ ["tab"]).length := rfl
          rw [h3] at h2
          simp only [List.append_assoc, List.singleton_append, List.length_append,
            List.length_singleton] at h2
          simp only [cmdTab, atEnd_upTo, h2]
          have hlen : (pre ++ "tab" :: name :: rest).length - (pre.length + 1 + 1) < n := by
            simp at h ⊢; omega
          have := ih (pre.length + 1 + 1) response
          split <;> try simp
          split <;> try simp
          split <;> simp [this _ _ hlen]
      · simp only [Bool.false_eq_true, if_false, isSome_map_eq]
        repeat (first
          | rfl
          | refine isSome_ite _ _ _ (fun _ => rfl) (fun _ => ?_)
          | refine isSome_ite _ _ _ (fun h => absurd h htab) (fun _ => ?_))
    · have hle : ts.length ≤ k := Nat.le_of_not_lt hk
      have herr : (Arguments.upTo ts k).toString.2.error = true := by
        simp [Arguments.toString, Arguments.toVariant, Arguments.length, Arguments.error,
          Arguments.upTo, QVariant.isValid, hle]
      simp only [doCommandAux]
      generalize (Arguments.upTo ts k).toString = r at herr
      obtain ⟨c, a⟩ := r
      simp only at herr
      simp [herr]

theorem doCommand_isSome (request : List String) (response : String) (t : Option Nat)
    (s : ClipboardServer) :
    (doCommand (Arguments.ofList request) response t s).isSome = true := by
  have := doCommandAux_isSome request (request.length + 1) 0 response t s (by omega)
  simpa [doCommand, Arguments.remaining, Arguments.ofList, Arguments.upTo,
    Arguments.length] using this

/-! ## Client session (C9) -/

theorem doCommand_nil (response : String) (t : Option Nat) (s : ClipboardServer) :
    doCommand (Arguments.ofList []) response t s = some (.CommandBadSyntax, response, s) := by
  simp [doCommand, doCommandAux, Arguments.ofList, Arguments.toString, Arguments.toVariant,
    Arguments.length, Arguments.error, Arguments.remaining, QVariant.isValid]

theorem doCommand_unknown (cmd : String) (rest : List String) (response : String)
    (t : Option Nat) (s : ClipboardServer) (h : cmd ∉ commandNames s.Q_WS_X11) :
    doCommand (Arguments.ofList (cmd :: rest)) response t s
      = some (.CommandBadSyntax, response, (s.emit (.lock (t.getD 0))).emit (.unlock (t.getD 0)))
    := by
  simp only [commandNames, List.mem_append, List.mem_cons, List.mem_singleton,
    List.not_mem_nil, or_false, not_or] at h
  obtain ⟨⟨n_show, n_hide, n_toggle, n_exit, n_menu, n_action, n_add, n_write, n_edit,
    n_select, n_remove, n_length, n_size, n_count, n_read, n_clipboard, n_config, n_tab,
    n_removetab, n_renametab, n_export, n_import⟩, hx⟩ := h
  have hsel : ¬ (s.Q_WS_X11 = true ∧ cmd = "selection") := by
    rintro ⟨hq, hc⟩
    apply hx
    simp [hq, hc]
  have hsel' : ¬ ((s.emit (.lock (t.getD 0))).Q_WS_X11 = true ∧ cmd = "selection") := hsel
  simp only [doCommand, doCommandAux, toString_ofList_cons, error_upTo, Bool.false_eq_true,
    if_false, n_show, n_hide, n_toggle, n_exit, n_menu, n_action, n_add, n_write, n_edit,
    n_select, n_remove, n_length, n_size, n_count, n_read, n_clipboard, n_config, n_tab,
    n_removetab, n_renametab, n_export, n_import, hsel', or_self, Option.map_some', unlockAfter]

/-- C9: the reply of the client session handler.  Every request is answered;
when `doCommand` returns bad-syntax — as it does for a request without any
token and for a request that names an unknown command — the message sent
back carries the bad-syntax status and exactly the fixed usage hint, whatever
the dispatcher had put into the response; for every other status the payload
is exactly the response of the dispatcher. -/
theorem newConnection_reply (request : List String) (s : ClipboardServer) :
    ∃ status response s',
      doCommand (Arguments.ofList request) "" none s = some (status, response, s') ∧
      newConnection request s
        = some ({ exitCode := status.code,
                  message := if status = .CommandBadSyntax
                    then "Bad command syntax. Use -h for help.\n" else response }, s') ∧
      (request = [] → status = .CommandBadSyntax) ∧
      (∀ cmd rest, request = cmd :: rest → cmd ∉ commandNames s.Q_WS_X11 →
        status = .CommandBadSyntax) := by
  obtain ⟨⟨status, response, s'⟩, hr⟩ :=
    Option.isSome_iff_exists.1 (doCommand_isSome request "" none s)
  refine ⟨status, response, s', hr, ?_, ?_, ?_⟩
  · simp only [newConnection, hr, Option.map_some', sendMessage, badSyntaxHint]
  · intro e
    subst e
    rw [doCommand_nil] at hr
    cases hr; rfl
  · intro cmd rest e hn
    subst e
    rw [doCommand_unknown cmd rest "" none s hn] at hr
    cases hr; rfl

/-! ## Renaming a tab (C10) -/

theorem tabs_emit (s : ClipboardServer) (e : Effect) : (s.emit e).tabs = s.tabs := rfl

theorem tabs_renameTab (s : ClipboardServer) (name : String) (i : Nat) :
    (s.renameTab name i).tabs = s.tabs.set i name := by
  simp only [ClipboardServer.renameTab, ClipboardServer.tabs, ClipboardServer.emit]
  apply List.ext_getElem?
  intro n
  by_cases h : i = n
  · subst h
    by_cases hi : i < s.m_wnd.tabs.length
    · simp [List.getElem?_map, List.getElem?_modify_eq, List.getElem?_set, hi,
        List.getElem?_eq_getElem hi]
    · simp [List.getElem?_map, List.getElem?_modify_eq, List.getElem?_set, hi,
        List.getElem?_eq_none (Nat.le_of_not_lt hi)]
  · simp [List.getElem?_map, List.getElem?_modify_ne _ _ h, List.getElem?_set, h]

theorem rows_renameTab (s : ClipboardServer) (name : String) (i c : Nat) :
    (s.renameTab name i).rows c = s.rows c := by
  simp only [ClipboardServer.renameTab, ClipboardServer.rows, ClipboardServer.emit]
  by_cases h : i = c
  · subst h
    simp only [List.getElem?_modify_eq]
    cases s.m_wnd.tabs[i]? <;> rfl
  · simp only [List.getElem?_modify_ne _ _ h]

/-- C10: validation in `renametab name new_name`.  For every tab list and
every pair of arguments the request is answered: with application-error, the
message "doesn't exist" and the window left as it was when `name` is not a
tab; else with application-error, "cannot be empty" and the window left as
it was when `new_name` is empty; else with application-error, "already
exists" and the window left as it was when `new_name` is a tab; and in every
remaining case with success, the first tab called `name` now called
`new_name`, every other tab name and all rows as before. -/
theorem renametab_validation (name new_name : String) (t : Option Nat) (s : ClipboardServer) :
    ∃ status response s',
      doCommand (Arguments.ofList ["renametab", name, new_name]) "" t s
        = some (status, response, s') ∧
      (name ∉ s.tabs →
        status = .CommandError ∧ response = "Tab with given name doesn't exist!\n" ∧
        s'.m_wnd = s.m_wnd) ∧
      (name ∈ s.tabs → new_name = "" →
        status = .CommandError ∧ response = "Tab name cannot be empty!\n" ∧
        s'.m_wnd = s.m_wnd) ∧
      (name ∈ s.tabs → new_name ≠ "" → new_name ∈ s.tabs →
        status = .CommandError ∧ response = "Tab with given name already exists!\n" ∧
        s'.m_wnd = s.m_wnd) ∧
      (name ∈ s.tabs → new_name ≠ "" → new_name ∉ s.tabs →
        status = .CommandSuccess ∧ response = "" ∧
        s'.tabs = s.tabs.set (s.tabs.indexOf name) new_name ∧
        ∀ c, s'.rows c = s.rows c) := by
  have hcmd : doCommand (Arguments.ofList ["renametab", name, new_name]) "" t s
      = some (unlockAfter (t.getD 0)
          (cmdRenametab (Arguments.upTo ["renametab", name, new_name] 1) ""
            (s.emit (.lock (t.getD 0))))) := by
    simp [doCommand, doCommandAux, toString_ofList_cons, error_upTo]
  have hargs : cmdRenametab (Arguments.upTo ["renametab", name, new_name] 1) ""
        (s.emit (.lock (t.getD 0)))
      = (let s1 := s.emit (.lock (t.getD 0))
         let i := s1.tabs.indexOf name
         if i ≥ s1.tabs.length then
           (.CommandError, "" ++ "Tab with given name doesn't exist!\n", s1)
         else if new_name.isEmpty then
           (.CommandError, "" ++ "Tab name cannot be empty!\n", s1)
         else if s1.tabs.indexOf new_name < s1.tabs.length then
           (.CommandError, "" ++ "Tab with given name already exists!\n", s1)
         else (.CommandSuccess, "", s1.renameTab new_name i)) := by
    simp [cmdRenametab, atEnd_upTo, toString_upTo_one, toString_upTo_two, error_upTo]
  rw [hargs] at hcmd
  simp only [tabs_emit] at hcmd
  by_cases h1 : name ∈ s.tabs
  · have i1 : ¬ (List.indexOf name s.tabs ≥ s.tabs.length) :=
      Nat.not_le.2 (List.indexOf_lt_length.2 h1)
    by_cases h2 : new_name = ""
    · have e2 : new_name.isEmpty = true := (String.isEmpty_iff _).2 h2
      refine ⟨_, _, _, hcmd, ?_, ?_, ?_, ?_⟩
      · intro h; exact absurd h1 h
      · intro _ _; simp [i1, e2, unlockAfter, ClipboardServer.emit]
      · intro _ h; exact absurd h2 h
      · intro _ h; exact absurd h2 h
    · have e2 : ¬ new_name.isEmpty = true := fun h => h2 ((String.isEmpty_iff _).1 h)
      by_cases h3 : new_name ∈ s.tabs
      · have i3 : List.indexOf new_name s.tabs < s.tabs.length := List.indexOf_lt_length.2 h3
        refine ⟨_, _, _, hcmd, ?_, ?_, ?_, ?_⟩
        · intro h; exact absurd h1 h
        · intro _ h; exact absurd h h2
        · intro _ _ _; simp [i1, e2, i3, unlockAfter, ClipboardServer.emit]
        · intro _ _ h; exact absurd h3 h
      · have i3 : ¬ List.indexOf new_name s.tabs < s.tabs.length :=
          fun h => h3 (List.indexOf_lt_length.1 h)
        refine ⟨_, _, _, hcmd, ?_, ?_, ?_, ?_⟩
        · intro h; exact absurd h1 h
        · intro _ h; exact absurd h h2
        · intro _ _ h; exact absurd h h3
        · intro _ _ _
          simp only [i1, e2, i3, if_false, Bool.false_eq_true, unlockAfter]
          refine ⟨trivial, trivial, ?_, ?_⟩
          · rw [tabs_emit, tabs_renameTab, tabs_emit]
          · intro c
            rw [rows_emit, rows_renameTab, rows_emit]
  · have i1 : List.indexOf name s.tabs ≥ s.tabs.length := by
      have := mt List.indexOf_lt_length.1 h1
      omega
    refine ⟨_, _, _, hcmd, ?_, ?_, ?_, ?_⟩
    · intro _; simp [i1, unlockAfter, ClipboardServer.emit]
    · intro h; exact absurd h h1
    · intro h; exact absurd h h1
    · intro h; exact absurd h h1

/-! ## Stop escalation (C11) -/

/-- The calls `stopMonitoring` makes on the process are those of the
escalation, whatever the process does and whether or not a socket exists. -/
theorem stopMonitoring_steps (o : StopAttempts) (s : ClipboardServer) (mon : QProcess)
    (hm : s.m_monitor = some mon) :
    ∃ new, (stopMonitoring o s).state.effects = s.effects ++ new ∧
      stopSteps new = escalation (mon.state != .NotRunning) s.m_socket.isSome o ∧
      (s.m_socket.isSome = true → o.closeStops = true →
        Effect.terminate ∉ new ∧ Effect.kill ∉ new) ∧
      (o.terminateStops = true → Effect.kill ∉ new) := by
  obtain ⟨cs, ts, ks⟩ := o
  obtain ⟨sock, wnd, m, h, cm, log, eff, cb, sel, ed, wf, rf, x11⟩ := s
  simp only at hm
  subst hm
  obtain ⟨st, con, econ, err⟩ := mon
  cases st <;> cases cs <;> cases ts <;> cases ks <;> cases sock <;>
    simp [stopMonitoring, stopByClose, stopByTerminate, stopByKill, processStops,
      monitorRuns, Outcome.andThen, Outcome.state, ClipboardServer.cmSetValue,
      ClipboardServer.emit, ClipboardServer.logMsg, stopSteps, escalation]
theorem escalation_sublist (running link : Bool) (o : StopAttempts) :
    (escalation running link o).Sublist
      [.socketDisconnectFromServer, .waitForFinished 1000, .terminate, .waitForFinished 1000,
        .kill] := by
  obtain ⟨cs, ts, ks⟩ := o
  cases running <;> cases link <;> cases cs <;> cases ts <;> cases ks <;> decide

/-- The escalation of `stopMonitoring`.  For every process handle and every
combination of outcomes of the three attempts, the calls made on the
process are, in this order, closing the socket and waiting, `terminate()` and
waiting, `kill()`, each made only when the process still runs after the one
before: `terminate()` is not sent to a process that stopped once the socket
was closed, `kill()` is not sent to a process that stopped after
`terminate()`.  With a monitor connection `stopMonitoring` returns on every
path, and whenever it returns, also when `kill()` has failed, the process
handle and the socket are both released. -/
theorem stop_escalation (o : StopAttempts) (s : ClipboardServer) (mon : QProcess)
    (hm : s.m_monitor = some mon) :
    ∃ new, (stopMonitoring o s).state.effects = s.effects ++ new ∧
      stopSteps new = escalation (mon.state != .NotRunning) s.m_socket.isSome o ∧
      (stopSteps new).Sublist
        [.socketDisconnectFromServer, .waitForFinished 1000, .terminate,
          .waitForFinished 1000, .kill] ∧
      (s.m_socket.isSome = true → o.closeStops = true →
        Effect.terminate ∉ new ∧ Effect.kill ∉ new) ∧
      (o.terminateStops = true → Effect.kill ∉ new) ∧
      (s.m_socket ≠ none →
        ∃ s', stopMonitoring o s = .done s' ∧ s'.m_monitor = none ∧ s'.m_socket = none) ∧
      (∀ s', stopMonitoring o s = .done s' → s'.m_monitor = none ∧ s'.m_socket = none) := by
  obtain ⟨new, h1, h2, h3, h4⟩ := stopMonitoring_steps o s mon hm
  obtain ⟨_, _, -, -, -, hdone, hfail⟩ := stopMonitoring_adds o s mon hm
  refine ⟨new, h1, h2, ?_, h3, h4, ?_, ?_⟩
  · rw [h2]; exact escalation_sublist _ _ _
  · intro hs
    exact ⟨_, (hdone hs).1, (hdone hs).2⟩
  · intro s' hs'
    by_cases hs : s.m_socket = none
    · rw [(hfail hs).1] at hs'; cases hs'
    · have h := hdone hs
      rw [hs'] at h
      exact h.2

/-- The escalation at a running monitor with its connection that survives
all three attempts: all five calls are made in order and handle and socket
are released. -/
theorem stop_escalation_witness :
    exampleServerLive.m_monitor = some exampleMonitor ∧
      ∃ s', stopMonitoring neverStops exampleServerLive = .done s' ∧
        stopSteps s'.effects =
          [.socketDisconnectFromServer, .waitForFinished 1000, .terminate,
            .waitForFinished 1000, .kill] ∧
        s'.m_monitor = none ∧ s'.m_socket = none := by
  obtain ⟨new, h1, h2, -, -, -, h5, -⟩ :=
    stop_escalation neverStops exampleServerLive exampleMonitor rfl
  obtain ⟨s', hd, hm, hs⟩ := h5 (by decide)
  refine ⟨rfl, s', hd, ?_, hm, hs⟩
  rw [hd] at h1
  simp only [Outcome.state] at h1
  rw [h1]
  have : stopSteps (exampleServerLive.effects ++ new) = stopSteps new := by
    simp [stopSteps, exampleServerLive, exampleServer]
  rw [this, h2]
  decide

/-- C11 fails on the code for a process handle without monitor connection,
the state `startMonitoring` leaves when the server starts.  Whatever the
process does on the attempts, `stopMonitoring` stops short at the call
`m_socket->deleteLater()` through the null socket, before `m_monitor` is
released; when the process survives every attempt, `terminate()`, the wait
and `kill()` have been made by then. -/
theorem stop_escalation_without_socket :
    (∀ o : StopAttempts,
      ∃ s', stopMonitoring o (startMonitoring true exampleServer) = .failed .nullSocket s' ∧
        s'.m_monitor ≠ none) ∧
    (∃ s', stopMonitoring neverStops (startMonitoring true exampleServer)
        = .failed .nullSocket s' ∧
      stopSteps s'.effects = [.terminate, .waitForFinished 1000, .kill] ∧
      s'.m_monitor ≠ none) := by
  refine ⟨?_, ⟨_, rfl, ?_, ?_⟩⟩
  · intro o
    obtain ⟨_, _, -, -, -, -, hfail⟩ :=
      stopMonitoring_adds o (startMonitoring true exampleServer) _ rfl
    exact ⟨_, (hfail rfl).1, (hfail rfl).2⟩
  · decide
  · decide
/-! ## Recursion through `tab` (C12) -/

/-- The dispatcher on an exhausted request. -/
theorem doCommandAux_exhausted (ts : List String) (n k : Nat) (response : String)
    (t : Option Nat) (s : ClipboardServer) (hle : ts.length ≤ k) :
    doCommandAux (n + 1) (Arguments.upTo ts k) response t s
      = some (.CommandBadSyntax, response, s) := by
  have herr : (Arguments.upTo ts k).toString.2.error = true := by
    simp [Arguments.toString, Arguments.toVariant, Arguments.length, Arguments.error,
      Arguments.upTo, QVariant.isValid, hle]
  simp only [doCommandAux]
  generalize (Arguments.upTo ts k).toString = r at herr
  obtain ⟨c, a⟩ := r
  simp only at herr
  simp [herr]

/-- The dispatcher on `tab`: the work is that of `cmdTab`, which gets the
dispatcher with one level less as the function to call on the rest. -/
theorem doCommandAux_tab (pre suf : List String) (n : Nat) (response : String)
    (t : Option Nat) (s : ClipboardServer) :
    doCommandAux (n + 1) (Arguments.upTo (pre ++ "tab" :: suf) pre.length) response t s
      = (cmdTab (doCommandAux n) (Arguments.upTo (pre ++ "tab" :: suf) (pre.length + 1))
          response (s.emit (.lock (t.getD 0)))).map (unlockAfter (t.getD 0)) := by
  have h0 := toString_upTo pre "tab" suf .invalid
  have h1 : ((Arguments.upTo (pre ++ "tab" :: suf) pre.length).setDefault .invalid)
      = Arguments.upTo (pre ++ "tab" :: suf) pre.length := rfl
  rw [h1] at h0
  simp only [doCommandAux, h0, error_upTo, Bool.false_eq_true, if_false]
  simp only [String.reduceEq, if_false, if_true, false_or, and_false, or_self]

/-- The dispatcher on any other command does not depend on the bound: no
call of the dispatcher is made. -/
theorem doCommandAux_not_tab (pre : List String) (cmd : String) (suf : List String)
    (n : Nat) (response : String) (t : Option Nat) (s : ClipboardServer)
    (htab : cmd ≠ "tab") :
    doCommandAux (n + 1) (Arguments.upTo (pre ++ cmd :: suf) pre.length) response t s
      = doCommandAux 1 (Arguments.upTo (pre ++ cmd :: suf) pre.length) response t s := by
  have h0 := toString_upTo pre cmd suf .invalid
  have h1 : ((Arguments.upTo (pre ++ cmd :: suf) pre.length).setDefault .invalid)
      = Arguments.upTo (pre ++ cmd :: suf) pre.length := rfl
  rw [h1] at h0
  have hf : (cmd = "tab") = False := eq_false htab
  simp only [doCommandAux, h0, error_upTo, Bool.false_eq_true, if_false, hf]

/-- The `tab` command on `tab name rest...`. -/
theorem cmdTab_cons (recurse : Arguments → String → Option Nat → ClipboardServer →
      Option CommandResult)
    (pre : List String) (name : String) (rest : List String) (response : String)
    (s : ClipboardServer) :
    cmdTab recurse (Arguments.upTo (pre ++ "tab" :: name :: rest) (pre.length + 1)) response s
      = if name = "" then some (.CommandError, response ++ "Tab name cannot be empty!\n", s)
        else if rest = [] then some (.CommandSuccess, response, (s.createTab name).2)
        else recurse (Arguments.upTo (pre ++ "tab" :: name :: rest) (pre.length + 2)) response
          (some (s.createTab name).1) (s.createTab name).2 := by
  have h2 := toString_upTo (pre ++ ["tab"]) name rest .invalid
  have h3 : ((Arguments.upTo ((pre ++ ["tab"]) ++ name :: rest)
      (pre ++ ["tab"]).length).setDefault .invalid)
      = Arguments.upTo ((pre ++ ["tab"]) ++ name :: rest) (pre ++ ["tab"]).length := rfl
  rw [h3] at h2
  simp only [List.append_assoc, List.singleton_append, List.length_append,
    List.length_singleton] at h2
  have hat : (Arguments.upTo (pre ++ "tab" :: name :: rest) (pre.length + 1)).atEnd = false := by
    simp [atEnd_upTo]
  have hat2 : (Arguments.upTo (pre ++ "tab" :: name :: rest) (pre.length + 1 + 1)).atEnd
      = decide (rest = []) := by
    cases rest with
    | nil => simp [atEnd_upTo]
    | cons a as => simp [atEnd_upTo]; omega
  simp only [cmdTab, hat, h2, hat2, Bool.false_eq_true, if_false]
  by_cases hn : name = ""
  · have : name.isEmpty = true := (String.isEmpty_iff _).2 hn
    rw [if_pos this, if_pos hn]
  · have : ¬ name.isEmpty = true := fun h => hn ((String.isEmpty_iff _).1 h)
    by_cases hr : rest = []
    · simp [hn, this, hr]
    · simp [hn, this, hr]

/-- The `tab` command without arguments. -/
theorem cmdTab_nil (recurse : Arguments → String → Option Nat → ClipboardServer →
      Option CommandResult)
    (pre : List String) (response : String) (s : ClipboardServer) :
    cmdTab recurse (Arguments.upTo (pre ++ ["tab"]) (pre.length + 1)) response s
      = some (.CommandSuccess,
          s.tabs.foldl (fun r tabName => r ++ (tabName ++ "\n")) response, s) := by
  simp [cmdTab, atEnd_upTo]
theorem drop_length_append (pre suf : List String) :
    (pre ++ suf).drop pre.length = suf := by
  induction pre with
  | nil => rfl
  | cons a as ih => simp

theorem drop_length_add_two (pre : List String) (a b : String) (rest : List String) :
    (pre ++ a :: b :: rest).drop (pre.length + 2) = rest := by
  induction pre with
  | nil => rfl
  | cons x xs ih => simp

theorem tabDepth_not_tab (cmd : String) (suf : List String) (h : cmd ≠ "tab") :
    tabDepth (cmd :: suf) = 0 := by
  match suf with
  | [] => rfl
  | [_] => rfl
  | _ :: _ :: _ => simp [tabDepth, h]

theorem tabDepth_tab_empty (rest : List String) : tabDepth ("tab" :: "" :: rest) = 0 := by
  cases rest with
  | nil => rfl
  | cons a as => simp [tabDepth]

theorem tabDepth_tab_cons (name : String) (rest : List String) (hn : name ≠ "")
    (hr : rest ≠ []) : tabDepth ("tab" :: name :: rest) = tabDepth rest + 1 := by
  cases rest with
  | nil => exact absurd rfl hr
  | cons a as => simp [tabDepth, hn]

/-- The nesting of `tab` is at most half the number of tokens. -/
theorem tabDepth_le (n : Nat) : ∀ l : List String, l.length ≤ n → 2 * tabDepth l ≤ l.length := by
  induction n with
  | zero =>
    intro l h
    have : l = [] := List.length_eq_zero.1 (Nat.le_zero.1 h)
    subst this; simp [tabDepth]
  | succ m ih =>
    intro l h
    match l, h with
    | [], _ => simp [tabDepth]
    | [_], _ => simp [tabDepth]
    | [_, _], _ => simp [tabDepth]
    | cmd :: name :: a :: as, h =>
      by_cases hc : cmd = "tab" ∧ name ≠ ""
      · have := ih (a :: as) (by simp at h ⊢; omega)
        simp only [tabDepth, hc, and_self, if_true, ne_eq, not_false_eq_true]
        simp only [List.length_cons] at this ⊢
        omega
      · simp [tabDepth, hc]

/-- The dispatcher on a command other than `tab` answers at once. -/
theorem doCommandAux_not_tab_isSome (pre : List String) (cmd : String) (suf : List String)
    (response : String) (t : Option Nat) (s : ClipboardServer) (htab : cmd ≠ "tab") :
    (doCommandAux 1 (Arguments.upTo (pre ++ cmd :: suf) pre.length) response t s).isSome
      = true := by
  have h0 := toString_upTo pre cmd suf .invalid
  have h1 : ((Arguments.upTo (pre ++ cmd :: suf) pre.length).setDefault .invalid)
      = Arguments.upTo (pre ++ cmd :: suf) pre.length := rfl
  rw [h1] at h0
  simp only [doCommandAux, h0, error_upTo, Bool.false_eq_true, if_false, isSome_map_eq]
  repeat (first
    | rfl
    | refine isSome_ite _ _ _ (fun _ => rfl) (fun _ => ?_)
    | refine isSome_ite _ _ _ (fun h => absurd h htab) (fun _ => ?_))

/-- The bound the dispatcher needs is exactly the nesting of `tab` in what is
left of the request: with a larger bound it gives the result it gives with
the least sufficient one, with a smaller or equal one it gives none. -/
theorem doCommandAux_depth (ts : List String) :
    ∀ (fuel k : Nat) (response : String) (t : Option Nat) (s : ClipboardServer),
      (tabDepth (ts.drop k) < fuel →
        doCommandAux fuel (Arguments.upTo ts k) response t s
          = doCommandAux (tabDepth (ts.drop k) + 1) (Arguments.upTo ts k) response t s ∧
        (doCommandAux fuel (Arguments.upTo ts k) response t s).isSome = true) ∧
      (fuel ≤ tabDepth (ts.drop k) →
        doCommandAux fuel (Arguments.upTo ts k) response t s = none) := by
  intro fuel
  induction fuel with
  | zero =>
    intro k response t s
    exact ⟨fun h => absurd h (Nat.not_lt_zero _), fun _ => rfl⟩
  | succ n ih =>
    intro k response t s
    by_cases hk : k < ts.length
    · obtain ⟨pre, cmd, suf, rfl, rfl⟩ := exists_split_at ts k hk
      rw [drop_length_append]
      by_cases htab : cmd = "tab"
      · subst htab
        match suf with
        | [] =>
          have hd : tabDepth ["tab"] = 0 := rfl
          rw [hd]
          refine ⟨fun _ => ⟨?_, ?_⟩, fun h => absurd h (by omega)⟩
          · rw [doCommandAux_tab, doCommandAux_tab, cmdTab_nil, cmdTab_nil]
          · rw [doCommandAux_tab, cmdTab_nil]; rfl
        | name :: rest =>
          by_cases hn : name = ""
          · subst hn
            rw [tabDepth_tab_empty]
            refine ⟨fun _ => ⟨?_, ?_⟩, fun h => absurd h (by omega)⟩
            · rw [doCommandAux_tab, doCommandAux_tab, cmdTab_cons, cmdTab_cons]
              simp
            · rw [doCommandAux_tab, cmdTab_cons]; simp
          · by_cases hr : rest = []
            · subst hr
              have hd : tabDepth ["tab", name] = 0 := rfl
              rw [hd]
              refine ⟨fun _ => ⟨?_, ?_⟩, fun h => absurd h (by omega)⟩
              · rw [doCommandAux_tab, doCommandAux_tab, cmdTab_cons, cmdTab_cons]
                simp [hn]
              · rw [doCommandAux_tab, cmdTab_cons]; simp [hn]
            · rw [tabDepth_tab_cons name rest hn hr]
              have hih := ih (pre.length + 2) response
                (some ((s.emit (.lock (t.getD 0))).createTab name).1)
                ((s.emit (.lock (t.getD 0))).createTab name).2
              rw [drop_length_add_two] at hih
              have hunfold : ∀ m, doCommandAux (m + 1)
                  (Arguments.upTo (pre ++ "tab" :: name :: rest) pre.length) response t s
                  = (doCommandAux m
                      (Arguments.upTo (pre ++ "tab" :: name :: rest) (pre.length + 2)) response
                      (some ((s.emit (.lock (t.getD 0))).createTab name).1)
                      ((s.emit (.lock (t.getD 0))).createTab name).2).map
                    (unlockAfter (t.getD 0)) := by
                intro m
                rw [doCommandAux_tab, cmdTab_cons, if_neg hn, if_neg hr]
              refine ⟨fun h => ?_, fun h => ?_⟩
              · obtain ⟨e, hs⟩ := hih.1 (by omega)
                refine ⟨?_, ?_⟩
                · rw [hunfold n, hunfold (tabDepth rest + 1), e]
                · rw [hunfold n, isSome_map_eq]; exact hs
              · rw [hunfold n, hih.2 (by omega)]; rfl
      · rw [tabDepth_not_tab cmd suf htab]
        refine ⟨fun _ => ⟨?_, ?_⟩, fun h => absurd h (by omega)⟩
        · exact doCommandAux_not_tab pre cmd suf n response t s htab
        · rw [doCommandAux_not_tab pre cmd suf n response t s htab]
          exact doCommandAux_not_tab_isSome pre cmd suf response t s htab
    · have hle : ts.length ≤ k := Nat.le_of_not_lt hk
      have hd : tabDepth (ts.drop k) = 0 := by
        rw [List.drop_eq_nil_of_le hle]; rfl
      rw [hd]
      refine ⟨fun _ => ⟨?_, ?_⟩, fun h => absurd h (by omega)⟩
      · rw [doCommandAux_exhausted ts n k response t s hle,
          doCommandAux_exhausted ts 0 k response t s hle]
      · rw [doCommandAux_exhausted ts n k response t s hle]; rfl
/-- The tab returned by `createTab` bears the name asked for. -/
theorem createTab_target (s : ClipboardServer) (name : String) :
    ((s.createTab name).2.tabs)[(s.createTab name).1]? = some name := by
  unfold ClipboardServer.createTab
  by_cases h : List.indexOf name (s.emit (.createTab name)).tabs
      < (s.emit (.createTab name)).tabs.length
  · simp only [h, if_true]
    exact List.getElem?_indexOf (List.indexOf_lt_length.1 h)
  · simp only [h, if_false]
    simp [ClipboardServer.tabs, ClipboardServer.emit]

/-- C12: the recursion of `doCommand` through `tab` terminates.  Every request
is answered.  The dispatcher calls itself only for `tab name rest...` with a
non-empty name and a non-empty rest: the call is made on the same request
read two tokens further, with the tab of that name as target, so the nesting
is `tabDepth`, at most half the number of tokens, and a bound above the
nesting gives the result of `doCommand`.  A request that is not of that form
is answered without any call of the dispatcher, and `tab` with an empty name
is answered with application-error without such a call and without creating
a tab. -/
theorem tab_recursion_terminates (request : List String) (response : String)
    (t : Option Nat) (s : ClipboardServer) :
    (doCommand (Arguments.ofList request) response t s).isSome = true ∧
    2 * tabDepth request ≤ request.length ∧
    (∀ fuel, (doCommandAux fuel (Arguments.ofList request) response t s).isSome = true ↔
      tabDepth request < fuel) ∧
    (∀ fuel, tabDepth request < fuel →
      doCommandAux fuel (Arguments.ofList request) response t s
        = doCommand (Arguments.ofList request) response t s) ∧
    (doCommandAux 1 (Arguments.ofList request) response t s = none →
      ∃ name a rest, request = "tab" :: name :: a :: rest ∧ name ≠ "") ∧
    (∀ name a rest fuel, request = "tab" :: name :: a :: rest → name ≠ "" →
      doCommandAux (fuel + 1) (Arguments.ofList request) response t s
        = (doCommandAux fuel (Arguments.upTo request 2) response
            (some ((s.emit (.lock (t.getD 0))).createTab name).1)
            ((s.emit (.lock (t.getD 0))).createTab name).2).map (unlockAfter (t.getD 0)) ∧
      (Arguments.upTo request 2).remaining + 2 = (Arguments.ofList request).remaining ∧
      (((s.emit (.lock (t.getD 0))).createTab name).2.tabs)[
          ((s.emit (.lock (t.getD 0))).createTab name).1]? = some name) ∧
    (∀ rest, request = "tab" :: "" :: rest →
      doCommandAux 1 (Arguments.ofList request) response t s
        = some (.CommandError, response ++ "Tab name cannot be empty!\n",
            (s.emit (.lock (t.getD 0))).emit (.unlock (t.getD 0)))) := by
  have hdepth := fun fuel => doCommandAux_depth request fuel 0 response t s
  have hle := tabDepth_le request.length request (Nat.le_refl _)
  have hof : Arguments.ofList request = Arguments.upTo request 0 := rfl
  have hdo : doCommand (Arguments.ofList request) response t s
      = doCommandAux (request.length + 1) (Arguments.upTo request 0) response t s := rfl
  simp only [List.drop_zero] at hdepth
  have hlt : tabDepth request < request.length + 1 := by omega
  refine ⟨?_, hle, ?_, ?_, ?_, ?_, ?_⟩
  · rw [hdo]; exact ((hdepth _).1 hlt).2
  · intro fuel
    rw [hof]
    constructor
    · intro h
      by_contra hn
      rw [(hdepth fuel).2 (by omega)] at h
      cases h
    · intro h; exact ((hdepth fuel).1 h).2
  · intro fuel h
    rw [hdo, hof, ((hdepth fuel).1 h).1, ((hdepth _).1 hlt).1]
  · intro h
    rw [hof] at h
    have h0 : ¬ tabDepth request < 1 := by
      intro hlt1
      have := ((hdepth 1).1 hlt1).2
      rw [h] at this
      cases this
    match request, h0 with
    | [], h0 => exact absurd (Nat.lt_succ_self 0) h0
    | [_], h0 => exact absurd (Nat.lt_succ_self 0) h0
    | [_, _], h0 => exact absurd (Nat.lt_succ_self 0) h0
    | cmd :: name :: a :: rest, h0 =>
      by_cases hc : cmd = "tab" ∧ name ≠ ""
      · obtain ⟨rfl, hn⟩ := hc
        exact ⟨name, a, rest, rfl, hn⟩
      · exact absurd (by simp [tabDepth, hc]) h0
  · intro name a rest fuel hreq hn
    subst hreq
    refine ⟨?_, rfl, createTab_target _ _⟩
    have h1 := doCommandAux_tab [] (name :: a :: rest) fuel response t s
    have h2 := cmdTab_cons (doCommandAux fuel) [] name (a :: rest) response
      (s.emit (.lock (t.getD 0)))
    rw [if_neg hn, if_neg (List.cons_ne_nil _ _)] at h2
    rw [hof]
    simp only [List.nil_append, List.length_nil, Nat.zero_add] at h1 h2
    rw [h1, h2]
  · intro rest hreq
    subst hreq
    have h1 := doCommandAux_tab [] ("" :: rest) 0 response t s
    have h2 := cmdTab_cons (doCommandAux 0) [] "" rest response (s.emit (.lock (t.getD 0)))
    rw [if_pos rfl] at h2
    rw [hof]
    simp only [List.nil_append, List.length_nil, Nat.zero_add] at h1 h2
    rw [h1, h2]
    rfl

/-! ## Socket access in `stopMonitoring` (C13) -/

/-- Without a monitor connection `stopMonitoring` reaches the call
`m_socket->deleteLater()` through the null socket, whatever the process
does. -/
theorem stopMonitoring_fails_without_socket (o : StopAttempts) (s : ClipboardServer)
    (mon : QProcess) (hm : s.m_monitor = some mon) (hs : s.m_socket = none) :
    ∃ s', stopMonitoring o s = .failed .nullSocket s' := by
  obtain ⟨_, _, -, -, -, -, hfail⟩ := stopMonitoring_adds o s mon hm
  exact ⟨_, (hfail hs).1⟩

/-- C13 fails on the code.  In the state `startMonitoring` leaves when the
server starts (process handle present, no monitor connection yet), a direct
call of `stopMonitoring` and the crash path, entered when the process exits
before it connects, both end in the call `m_socket->deleteLater()` through
the null socket; so does a direct call when the process has already
exited. -/
theorem stopMonitoring_null_socket :
    (∃ s', stopMonitoring stopsAtOnce (startMonitoring true exampleServer)
        = .failed .nullSocket s') ∧
    (∃ s', processStateChanged stopsAtOnce true .NotRunning (startMonitoring true exampleServer)
        = .failed .nullSocket s') ∧
    (∃ s', stopMonitoring neverStops exampleServerNoLink = .failed .nullSocket s') :=
  ⟨⟨_, rfl⟩, ⟨_, rfl⟩, ⟨_, rfl⟩⟩

end CopyQ
